import Mathlib

/-!
Verification development for the MCP gateway repository.

The gateway (src/mcp_gateway/server.py) aggregates tools from downstream MCP
servers: it keeps an insertion-ordered registry of server entries, connects to
each over one of three transports (stdio pipe, SSE, streamable-http), builds a
namespaced tool catalog with routing metadata, persists the registry to a JSON
file on successful admin mutations, and dispatches tool calls either itself or
(on the client side, src/mcp_client/client.py) directly to network-addressable
servers.

The embedding below models the gateway state as explicit data: Python dicts
become insertion-ordered association lists, the file system becomes a list of
existing absolute paths, asynchronous connect phases become a `ConnectWorld`
record saying which phase succeeds and which tools the downstream advertises,
and OS-level resources (transports, sessions, HTTP clients) become numbered
handles tracked in an `openRes` ledger.  Every state-mutating operation also
returns the list of its intermediate states, so temporal claims (teardown
before reconnect) can be stated over every observable intermediate state.
-/

namespace MCPTest

/-- Assoc-list model of a Python dict: insertion-ordered, keys unique in every
reachable state.  Lookup returns the value at the first matching key. -/
def odLookup {α : Type} : List (String × α) → String → Option α
  | [], _ => none
  | (k, v) :: rest, key => if k = key then some v else odLookup rest key

/-- `key in d` for the dict model. -/
def odMem {α : Type} (m : List (String × α)) (key : String) : Bool :=
  (odLookup m key).isSome

/-- Dict assignment `d[key] = v`: replace the value at an existing key in
place, otherwise append the binding (Python dicts keep insertion order). -/
def odInsert {α : Type} : List (String × α) → String → α → List (String × α)
  | [], key, v => [(key, v)]
  | (k, w) :: rest, key, v =>
      if k = key then (k, v) :: rest else (k, w) :: odInsert rest key v

/-- Dict deletion `del d[key]`: remove the first binding for the key. -/
def odErase {α : Type} : List (String × α) → String → List (String × α)
  | [], _ => []
  | (k, w) :: rest, key => if k = key then rest else (k, w) :: odErase rest key

def odKeys {α : Type} (m : List (String × α)) : List String := m.map Prod.fst

/-- A dict state is well formed when its keys are pairwise distinct;
Python dicts satisfy this by construction. -/
def odWF {α : Type} (m : List (String × α)) : Prop := (odKeys m).Nodup

/-- Python truthiness of an optional string: `None` and `""` are both falsy,
so `d.get(k)` guarded by `if not x` behaves like this normalization. -/
def truthyOptStr : Option String → Option String
  | some s => if s = "" then none else some s
  | none => none

/-! ### POSIX path model (for pathlib operations in the source) -/

/-- `str.startswith(pre)`, computed on the character lists (semantically the
same as `String.startsWith`, but it reduces inside the kernel). -/
def strStartsWith (s pre : String) : Bool := pre.data.isPrefixOf s.data

/-- A path is absolute when it starts with a slash. -/
def isAbsolutePath (p : String) : Bool := strStartsWith p "/"

/-- `pathlib` division `b / a`: an absolute right operand replaces the left. -/
def joinPath (b a : String) : String := if isAbsolutePath a then a else b ++ "/" ++ a

/-- `Path.resolve()`: a relative path is resolved against the process working
directory; an absolute path (the directories involved here carry no dot
segments) resolves to itself. -/
def resolvePath (cwd p : String) : String := joinPath cwd p

/-- `Path.exists()`: membership of the resolved path in the file system,
modelled as the list of existing absolute paths. -/
def pathExists (fs : List String) (cwd p : String) : Bool :=
  fs.contains (resolvePath cwd p)

/-- Argument resolution for pipe-transport servers
(src/mcp_gateway/server.py lines 83-90): the argument is resolved against the
registry base directory when it exists as given, or when it is relative and
exists under the base directory; otherwise it is passed through unchanged. -/
def resolveArg (fs : List String) (cwd base_dir arg : String) : String :=
  if pathExists fs cwd arg ||
      (!isAbsolutePath arg && pathExists fs cwd (joinPath base_dir arg)) then
    resolvePath cwd (joinPath base_dir arg)
  else arg

/-! ### Data model -/

/-- A registry server entry (a JSON object in the registry file; optional
fields are absent keys). -/
structure ServerEntry where
  id : Option String
  type_ : Option String
  command : Option String
  args : List String
  env : Option (List (String × String))
  url : Option String
  headers : Option (List (String × String))
deriving Repr, DecidableEq

/-- Routing metadata attached to every aggregated tool
(src/mcp_gateway/server.py lines 139-148). -/
structure ToolMeta where
  server_id : String
  server_type : String
  original_name : String
  server_url : Option String
  direct_call_allowed : Bool
deriving Repr, DecidableEq

/-- A tool as advertised by a downstream server. -/
structure DownTool where
  name : String
  description : String
  inputSchema : String
deriving Repr, DecidableEq

/-- An aggregated (namespaced) tool in the gateway catalog. -/
structure Tool where
  name : String
  description : String
  inputSchema : String
  meta : ToolMeta
deriving Repr, DecidableEq

/-- The full mutable state of an `MCPGateway` instance, together with the
durable registry file (`file`), the resource ledger (`openRes` holds the
handles of currently open transports/sessions/HTTP clients, `nextRid` the
allocation counter) and the record of spawned subprocess command lines. -/
structure GatewayState where
  base_dir : String
  registry_entries : List (String × ServerEntry)
  sessions : List (String × Nat)
  stdio_contexts : List (String × Nat)
  http_clients : List (String × Nat)
  server_tools : List (String × List Tool)
  tools : List Tool
  tool_map : List (String × (String × String))
  file : Option (List ServerEntry)
  openRes : List Nat
  nextRid : Nat
  spawned : List (String × String × List String)
deriving Repr, DecidableEq

/-- The environment of a single connect attempt: whether opening the
transport, initializing the session and listing tools succeed, which tools the
downstream advertises, and the file system seen by argument resolution. -/
structure ConnectWorld where
  openOk : Bool
  initOk : Bool
  listOk : Bool
  advertised : List DownTool
  fs : List String
  cwd : String
deriving Repr

/-- ASCII single quote, used in the error strings of the source. -/
def q : String := String.singleton (Char.ofNat 39)

/-- `sys.executable` stand-in. -/
def pyExecutable : String := "/usr/bin/python3"

/-- Close a resource handle: remove it from the open-resource ledger
(the source swallows close errors, so closing always succeeds here). -/
def closeRes (s : GatewayState) (rid : Nat) : GatewayState :=
  { s with openRes := s.openRes.erase rid }

/-- Delete a sequence of routing-table keys one by one, returning the state
after each deletion (the `for name in to_remove` loop of the source). -/
def delToolMapSeq (s : GatewayState) : List String → GatewayState × List GatewayState
  | [] => (s, [])
  | n :: rest =>
      let s1 := { s with tool_map := odErase s.tool_map n }
      let out := delToolMapSeq s1 rest
      (out.1, s1 :: out.2)

/-- First block of `_disconnect_entry` (lines 169-174): close and drop the
stored session, if any. -/
def discSessions (s : GatewayState) (server_id : String) :
    GatewayState × List GatewayState :=
  match odLookup s.sessions server_id with
  | some rid =>
      let sa := closeRes s rid
      let sb := { sa with sessions := odErase sa.sessions server_id }
      (sb, [sa, sb])
  | none => (s, [])

/-- Second block (lines 175-180): close and drop the stored transport
context, if any. -/
def discContexts (s : GatewayState) (server_id : String) :
    GatewayState × List GatewayState :=
  match odLookup s.stdio_contexts server_id with
  | some rid =>
      let sa := closeRes s rid
      let sb := { sa with stdio_contexts := odErase sa.stdio_contexts server_id }
      (sb, [sa, sb])
  | none => (s, [])

/-- Third block (lines 181-186): close and drop the stored HTTP client, if
any. -/
def discHttp (s : GatewayState) (server_id : String) :
    GatewayState × List GatewayState :=
  match odLookup s.http_clients server_id with
  | some rid =>
      let sa := closeRes s rid
      let sb := { sa with http_clients := odErase sa.http_clients server_id }
      (sb, [sa, sb])
  | none => (s, [])

/-- Fourth block (lines 187-188): drop the per-server tool list, if any. -/
def discServerTools (s : GatewayState) (server_id : String) :
    GatewayState × List GatewayState :=
  if odMem s.server_tools server_id then
    let sa := { s with server_tools := odErase s.server_tools server_id }
    (sa, [sa])
  else (s, [])

/-- `MCPGateway._disconnect_entry` (src/mcp_gateway/server.py lines 167-193):
close and drop the session, transport context and HTTP client stored for the
server id, drop its per-server tool list, and delete every routing-table entry
whose server id matches.  Returns the final state and every intermediate
state. -/
def disconnect_entry (s0 : GatewayState) (server_id : String) :
    GatewayState × List GatewayState :=
  let p1 := discSessions s0 server_id
  let p2 := discContexts p1.1 server_id
  let p3 := discHttp p2.1 server_id
  let p4 := discServerTools p3.1 server_id
  let names := (p4.1.tool_map.filter (fun p => p.2.1 == server_id)).map Prod.fst
  let p5 := delToolMapSeq p4.1 names
  (p5.1, p1.2 ++ p2.2 ++ p3.2 ++ p4.2 ++ p5.2)

/-- Is the server type one of the two network-stream kinds? -/
def streamKind (t : String) : Bool := t == "sse" || t == "streamable-http"

/-- Build one namespaced catalog tool with its routing metadata
(src/mcp_gateway/server.py lines 136-156). -/
def mkGwTool (server_id server_type : String) (url : Option String)
    (t : DownTool) : Tool :=
  { name := server_id ++ "." ++ t.name
    description := t.description
    inputSchema := t.inputSchema
    meta :=
      if streamKind server_type then
        { server_id := server_id, server_type := server_type
          original_name := t.name, server_url := url, direct_call_allowed := true }
      else
        { server_id := server_id, server_type := server_type
          original_name := t.name, server_url := none, direct_call_allowed := false } }

/-- The `for tool in tools_result.tools` loop of `_connect_entry`: build each
namespaced tool and record it in the routing table, one per iteration.
Returns the final state, the namespaced list, and each intermediate state. -/
def addToolsSeq (s : GatewayState) (server_id server_type : String)
    (url : Option String) : List DownTool → GatewayState × List Tool × List GatewayState
  | [] => (s, [], [])
  | t :: rest =>
      let tool := mkGwTool server_id server_type url t
      let s1 := { s with tool_map := odInsert s.tool_map tool.name (server_id, t.name) }
      let out := addToolsSeq s1 server_id server_type url rest
      (out.1, tool :: out.2.1, s1 :: out.2.2)

/-- URL validation used for both stream kinds:
`if not url or not str(url).startswith("http")`. -/
def urlOkFor (e : ServerEntry) : Bool :=
  match e.url with
  | some u => (u != "") && strStartsWith u "http"
  | none => false

/-- Result of a state-mutating step: final state, error raised (if any), and
every intermediate state in order. -/
structure StepOut where
  s : GatewayState
  err : Option String
  trace : List GatewayState
deriving Repr

/-- Allocate and open a transport handle. -/
def openTransport (s : GatewayState) : GatewayState × Nat :=
  ({ s with nextRid := s.nextRid + 1, openRes := s.openRes ++ [s.nextRid] }, s.nextRid)

/-- The tail of `_connect_entry` shared by all three transports
(src/mcp_gateway/server.py lines 129-164): create and enter the session,
initialize it, list the tools, build the namespaced catalog entries, then
store session, transport context and per-server tool list.  A failure while
initializing or listing raises with the locally created session and transport
still open and not recorded in any of the gateway maps, exactly as in the
source where they are local variables stored only after full success. -/
def sessionPhases (s1 : GatewayState) (server : ServerEntry)
    (server_id server_type : String) (trid : Nat) (w : ConnectWorld)
    (tr0 : List GatewayState) : StepOut :=
  let srid := s1.nextRid
  let s2 := { s1 with nextRid := s1.nextRid + 1, openRes := s1.openRes ++ [srid] }
  if !w.initOk then
    { s := s2
      err := some ("Timeout while initializing server " ++ q ++ server_id ++ q)
      trace := tr0 ++ [s2] }
  else if !w.listOk then
    { s := s2
      err := some ("Timeout while listing tools for " ++ q ++ server_id ++ q)
      trace := tr0 ++ [s2] }
  else
    let outT := addToolsSeq s2 server_id server_type server.url w.advertised
    let s3 := outT.1
    let namespaced := outT.2.1
    let s4 := { s3 with sessions := odInsert s3.sessions server_id srid }
    let s5 := { s4 with stdio_contexts := odInsert s4.stdio_contexts server_id trid }
    let s6 := { s5 with server_tools := odInsert s5.server_tools server_id namespaced }
    { s := s6, err := none, trace := tr0 ++ [s2] ++ outT.2.2 ++ [s4, s5, s6] }

/-- `MCPGateway._connect_entry` (src/mcp_gateway/server.py lines 67-165).
A transport-open timeout is modelled as acquiring nothing (the cancelled
context manager cleans up its own half-open state); for streamable-http the
HTTP client is created and stored in `http_clients` before the transport is
opened, exactly as in the source. -/
def connect_entry (s0 : GatewayState) (server : ServerEntry) (w : ConnectWorld) :
    StepOut :=
  match truthyOptStr server.id with
  | none =>
      { s := s0, err := some ("Registry server entry missing " ++ q ++ "id" ++ q)
        trace := [] }
  | some server_id =>
    let server_type := server.type_.getD "stdio"
    if server_type == "stdio" then
      let command0 :=
        match truthyOptStr server.command with
        | some c => c
        | none => pyExecutable
      let command := if command0 == "python" then pyExecutable else command0
      let resolved_args := server.args.map (resolveArg w.fs w.cwd s0.base_dir)
      if w.openOk then
        let opened := openTransport s0
        let sB := { opened.1 with
                    spawned := opened.1.spawned ++ [(server_id, command, resolved_args)] }
        sessionPhases sB server server_id server_type opened.2 w [sB]
      else
        { s := s0
          err := some ("Timeout while connecting to stdio server " ++ q ++ server_id ++ q)
          trace := [] }
    else if server_type == "sse" then
      if !(urlOkFor server) then
        { s := s0
          err := some ("Server " ++ q ++ server_id ++ q ++ " missing valid " ++
                       q ++ "url" ++ q ++ " for SSE")
          trace := [] }
      else if w.openOk then
        let opened := openTransport s0
        sessionPhases opened.1 server server_id server_type opened.2 w [opened.1]
      else
        { s := s0
          err := some ("Timeout while connecting to SSE server " ++ q ++ server_id ++ q)
          trace := [] }
    else if server_type == "streamable-http" then
      if !(urlOkFor server) then
        { s := s0
          err := some ("Server " ++ q ++ server_id ++ q ++ " missing valid " ++
                       q ++ "url" ++ q ++ " for streamable-http")
          trace := [] }
      else
        let hrid := s0.nextRid
        let sH := { s0 with
          nextRid := s0.nextRid + 1,
          openRes := s0.openRes ++ [hrid],
          http_clients := odInsert s0.http_clients server_id hrid }
        if w.openOk then
          let opened := openTransport sH
          sessionPhases opened.1 server server_id server_type opened.2 w [sH, opened.1]
        else
          { s := sH
            err := some ("Timeout while connecting to streamable-http server " ++
                         q ++ server_id ++ q)
            trace := [sH] }
    else
      { s := s0, err := some ("Unsupported server type: " ++ server_type), trace := [] }

/-- `MCPGateway._rebuild_tool_list` (lines 195-200). -/
def rebuild_tool_list (s : GatewayState) : GatewayState :=
  { s with tools := (s.server_tools.map Prod.snd).flatten }

/-- `MCPGateway._persist_registry` (lines 47-52): rewrite the registry file in
full from the in-memory entries. -/
def persist_registry (s : GatewayState) : GatewayState :=
  { s with file := some (s.registry_entries.map Prod.snd) }

/-- Structured result of an admin operation. -/
structure AdminResult where
  status : String
  message : String
deriving Repr, DecidableEq

/-- `MCPGateway.register_server` (lines 222-246).  Returns the final state,
the structured result, and every intermediate state. -/
def register_server (s0 : GatewayState) (server : ServerEntry) (w : ConnectWorld) :
    GatewayState × AdminResult × List GatewayState :=
  match truthyOptStr server.id with
  | none =>
      (s0, { status := "error"
             message := "Missing required field " ++ q ++ "id" ++ q }, [])
  | some server_id =>
    let step1 :=
      if odMem s0.registry_entries server_id then disconnect_entry s0 server_id
      else (s0, [])
    let s1 := step1.1
    let s2 := { s1 with registry_entries := odInsert s1.registry_entries server_id server }
    let out := connect_entry s2 server w
    match out.err with
    | none =>
        let s3 := rebuild_tool_list out.s
        let s4 := persist_registry s3
        (s4, { status := "ok", message := "Registered " ++ server_id },
         step1.2 ++ [s2] ++ out.trace ++ [s3, s4])
    | some e =>
        let s3 :=
          if odMem out.s.registry_entries server_id then
            { out.s with registry_entries := odErase out.s.registry_entries server_id }
          else out.s
        let step4 := disconnect_entry s3 server_id
        (step4.1, { status := "error", message := e },
         step1.2 ++ [s2] ++ out.trace ++ [s3] ++ step4.2)

/-- `MCPGateway.unregister_server` (lines 248-257). -/
def unregister_server (s0 : GatewayState) (server_id : String) :
    GatewayState × AdminResult × List GatewayState :=
  if !(odMem s0.registry_entries server_id) then
    (s0, { status := "error"
           message := "Server " ++ q ++ server_id ++ q ++ " not found" }, [])
  else
    let s1 := { s0 with registry_entries := odErase s0.registry_entries server_id }
    let step2 := disconnect_entry s1 server_id
    let s3 := rebuild_tool_list step2.1
    let s4 := persist_registry s3
    (s4, { status := "ok", message := "Unregistered " ++ server_id },
     [s1] ++ step2.2 ++ [s3, s4])

/-- `MCPGateway.list_registry` (lines 259-261). -/
def list_registry (s : GatewayState) : List ServerEntry :=
  s.registry_entries.map Prod.snd

/-! ### Invocation dispatch -/

/-- One `TextContent` item of a tool-call response. -/
structure TextContent where
  text : String
deriving Repr, DecidableEq

/-- Behaviour of the downstream `session.call_tool` for the invocation at
hand: it either raises or returns a response whose `content` may be absent,
empty, or a non-empty list. -/
inductive Downstream where
  | raises (msg : String)
  | returns (content : Option (List TextContent))
deriving Repr, DecidableEq

/-- `result.content or [TextContent(type="text", text="")]`: a `None` or
empty content list is replaced by one empty text item. -/
def contentOrEmpty : Option (List TextContent) → List TextContent
  | some (x :: xs) => x :: xs
  | some [] => [{ text := "" }]
  | none => [{ text := "" }]

/-- `MCPGateway.call_tool` (lines 263-273).  An unknown name or a missing
session produce error-shaped text; otherwise the downstream is invoked, and a
downstream exception propagates (as `Except.error`) to the caller. -/
def gw_call_tool (s : GatewayState) (name : String) (down : Downstream) :
    Except String (List TextContent) :=
  match odLookup s.tool_map name with
  | none => .ok [{ text := "Error: Unknown tool " ++ q ++ name ++ q }]
  | some pair =>
    match odLookup s.sessions pair.1 with
    | none => .ok [{ text := "Error: No session for server " ++ q ++ pair.1 ++ q }]
    | some _ =>
      match down with
      | .raises m => .error m
      | .returns c => .ok (contentOrEmpty c)

/-- The `arguments` dict of a protocol-level tool call, with the keys the
admin schema knows about.  `admin_token := none` models both an absent key and
an explicit `null` (the handler strips a `null` token before use, and
`dict.get` treats the two alike). -/
structure Arguments where
  admin_token : Option String
  id : Option String
  type_ : Option String
  command : Option String
  args : List String
  env : Option (List (String × String))
  url : Option String
  headers : Option (List (String × String))
deriving Repr, DecidableEq

/-- The server entry carried by an `admin.register_server` arguments dict. -/
def argsToEntry (a : Arguments) : ServerEntry :=
  { id := a.id, type_ := a.type_, command := a.command, args := a.args
    env := a.env, url := a.url, headers := a.headers }

/-- `_is_admin_ok` (lines 336-340): the gate is open when the configured
secret is unset or empty (Python falsiness), otherwise the supplied token must
equal the secret. -/
def is_admin_ok (secret : Option String) (a : Arguments) : Bool :=
  match truthyOptStr secret with
  | none => true
  | some t => a.admin_token == some t

/-- Stand-in for `json.dumps` on an admin result (the exact rendering is
irrelevant to every claim; only its shape as a single text payload matters). -/
def renderResult (r : AdminResult) : String :=
  "status=" ++ r.status ++ "; message=" ++ r.message

/-- Stand-in for `json.dumps` on the registry listing. -/
def renderRegistry (l : List ServerEntry) : String :=
  String.intercalate ";" (l.map (fun e => (e.id.getD "") ++ ":" ++ (e.type_.getD "stdio")))

/-- The `@app.call_tool()` handler (src/mcp_gateway/server.py lines 358-389):
admin names are token-gated and dispatched to the admin operations; every
other name goes to `MCPGateway.call_tool`; any exception raised during
dispatch is converted to a single `"Error: <message>"` text payload.  Returns
the state after the call, the text payload list, and the intermediate states
of any admin mutation performed. -/
def app_call_tool (secret : Option String) (gwPresent : Bool) (s : GatewayState)
    (name : String) (a : Arguments) (w : ConnectWorld) (down : Downstream) :
    GatewayState × List TextContent × List GatewayState :=
  if !gwPresent then
    (s, [{ text := "Error: gateway not initialized" }], [])
  else if strStartsWith name "admin." then
    if !(is_admin_ok secret a) then
      (s, [{ text := "Error: unauthorized" }], [])
    else if name == "admin.list_servers" then
      (s, [{ text := renderRegistry (list_registry s) }], [])
    else if name == "admin.register_server" then
      let out := register_server s (argsToEntry a) w
      (out.1, [{ text := renderResult out.2.1 }], out.2.2)
    else if name == "admin.unregister_server" then
      let out := unregister_server s (a.id.getD "")
      (out.1, [{ text := renderResult out.2.1 }], out.2.2)
    else
      (s, [{ text := "Error: unknown admin tool" }], [])
  else
    match gw_call_tool s name down with
    | .ok c => (s, c, [])
    | .error m => (s, [{ text := "Error: " ++ m }], [])

/-! ### Client-side routing (src/mcp_client/client.py) -/

/-- Routing metadata as the client reads it from an aggregated tool
(`tool.meta or {}` — every field is an optional dict entry). -/
structure ClientMeta where
  server_id : Option String
  server_type : Option String
  original_name : Option String
  server_url : Option String
  direct_call_allowed : Option Bool
deriving Repr, DecidableEq

/-- The empty metadata dict. -/
def emptyMeta : ClientMeta :=
  { server_id := none, server_type := none, original_name := none
    server_url := none, direct_call_allowed := none }

/-- Python truthiness of `meta.get("direct_call_allowed")`. -/
def truthyOptBool : Option Bool → Bool
  | some b => b
  | none => false

/-- Python truthiness of `meta.get("server_url")`. -/
def truthyUrl : Option String → Bool
  | some u => u != ""
  | none => false

/-- The routing condition of `MCPClient.call_tool`
(src/mcp_client/client.py lines 200 and 215):
`meta.get("direct_call_allowed") and meta.get("server_type") in
{"sse", "streamable-http"} and meta.get("server_url")`. -/
def directRouteCond (meta : ClientMeta) : Bool :=
  truthyOptBool meta.direct_call_allowed &&
  (meta.server_type == some "sse" || meta.server_type == some "streamable-http") &&
  truthyUrl meta.server_url

/-- Client connection state, as far as routing is concerned: the
multi-session registry mode (`self.sessions` non-empty) or the single-session
gateway mode. -/
structure ClientState where
  hasSingleSession : Bool
  sessions : List (String × Nat)
  tool_map : List (String × (String × String))
  tool_meta : List (String × ClientMeta)
deriving Repr, DecidableEq

/-- Which path a dispatched invocation took. -/
inductive Route where
  | direct
  | gatewayMediated
deriving Repr, DecidableEq

/-- The routing decision of `MCPClient.call_tool`
(src/mcp_client/client.py lines 191-227), keeping the two branches of the
source: the registry (multi-session) mode and the single-session mode.
`Except.error` models the `RuntimeError`s the source raises. -/
def client_call_tool (c : ClientState) (tool_name : String) : Except String Route :=
  if c.sessions != [] then
    match odLookup c.tool_map tool_name with
    | none => .error ("Tool not found: " ++ tool_name)
    | some pair =>
      let meta := (odLookup c.tool_meta tool_name).getD emptyMeta
      if directRouteCond meta then .ok .direct
      else
        match odLookup c.sessions pair.1 with
        | none => .error ("Server session not found: " ++ pair.1)
        | some _ => .ok .gatewayMediated
  else
    if !c.hasSingleSession then .error "Not connected to server"
    else
      let meta := (odLookup c.tool_meta tool_name).getD emptyMeta
      if directRouteCond meta then .ok .direct
      else .ok .gatewayMediated

/-- The metadata `MCPClient.call_tool` consults for a tool name. -/
def clientMetaOf (c : ClientState) (tool_name : String) : ClientMeta :=
  (odLookup c.tool_meta tool_name).getD emptyMeta

/-! ### Initial bulk connect (`MCPGateway.connect` and `run_server`) -/

/-- The `for server in servers` loop of `MCPGateway.connect` (lines 216-217):
entries are connected strictly sequentially; the first raised error aborts the
loop and propagates.  Returns the final state, the first error (if any), and
the ids attempted in order. -/
def connect_loop (wfun : Nat → ConnectWorld) :
    Nat → GatewayState → List ServerEntry → GatewayState × Option String × List String
  | _, s, [] => (s, none, [])
  | i, s, srv :: rest =>
    let out := connect_entry s srv (wfun i)
    match out.err with
    | some e => (out.s, some e, [srv.id.getD ""])
    | none =>
        let tail := connect_loop wfun (i + 1) out.s rest
        (tail.1, tail.2.1, (srv.id.getD "") :: tail.2.2)

/-- `MCPGateway.connect` (lines 202-220): load the registry file (raising when
it is missing), require a non-empty server list, build the entries map
(`{srv["id"]: srv}` raises a KeyError when an entry lacks the key), reset the
in-memory maps, connect each entry sequentially and rebuild the catalog.
`w` supplies the connect environment of the i-th entry. -/
def gw_connect (s0 : GatewayState) (w : Nat → ConnectWorld) :
    GatewayState × Option String × List String :=
  match s0.file with
  | none => (s0, some "Registry file not found", [])
  | some servers =>
    if servers.isEmpty then
      (s0, some "Registry has no servers configured", [])
    else if servers.any (fun srv => srv.id.isNone) then
      (s0, some "KeyError: id", [])
    else
      let entries := servers.foldl (fun m srv => odInsert m (srv.id.getD "") srv) []
      let s1 := { s0 with
        registry_entries := entries, tools := [], tool_map := [],
        sessions := [], stdio_contexts := [], http_clients := [], server_tools := [] }
      let out := connect_loop w 0 s1 servers
      match out.2.1 with
      | some e => (out.1, some e, out.2.2)
      | none => (rebuild_tool_list out.1, none, out.2.2)

/-- `run_server` (lines 392-405) begins serving only after `connect()` has
returned without raising; a propagated exception aborts startup. -/
def run_serves (s0 : GatewayState) (w : Nat → ConnectWorld) : Bool :=
  (gw_connect s0 w).2.1.isNone

/-! ### Concrete fixtures used by the counterexample/bug-witness theorems -/

/-- A pipe-type entry with id `x` (the originally registered server). -/
def exE1 : ServerEntry :=
  { id := some "x", type_ := some "stdio", command := some "cmd1", args := []
    env := none, url := none, headers := none }

/-- A replacement pipe-type entry for the same id `x`. -/
def exE2 : ServerEntry :=
  { id := some "x", type_ := some "stdio", command := some "cmd2", args := []
    env := none, url := none, headers := none }

/-- The catalog tool of the originally connected server `x`. -/
def exT1 : Tool := mkGwTool "x" "stdio" none { name := "t", description := "d", inputSchema := "s" }

/-- Gateway state after a successful startup with the single server `x`
connected (transport handle 0, session handle 1) and persisted. -/
def exS0 : GatewayState :=
  { base_dir := "/base"
    registry_entries := [("x", exE1)]
    sessions := [("x", 1)]
    stdio_contexts := [("x", 0)]
    http_clients := []
    server_tools := [("x", [exT1])]
    tools := [exT1]
    tool_map := [("x.t", ("x", "t"))]
    file := some [exE1]
    openRes := [0, 1]
    nextRid := 2
    spawned := [] }

/-- A connect environment in which the transport opens but the session
initialize phase times out. -/
def exWInitFail : ConnectWorld :=
  { openOk := true, initOk := false, listOk := true, advertised := []
    fs := [], cwd := "/cwd" }

/-- A fresh, empty gateway state. -/
def exSEmpty : GatewayState :=
  { base_dir := "/base", registry_entries := [], sessions := [], stdio_contexts := []
    http_clients := [], server_tools := [], tools := [], tool_map := []
    file := some [], openRes := [], nextRid := 0, spawned := [] }

/-- Modelled from the spec (claim C4 wording): the expected result of one
invocation dispatch — UnknownTool-shaped text when the name is not in the
routing table, NoSession-shaped text when the owning server has no live
session, the downstream content otherwise (an empty text when the response
carries no content), and an `"Error: <message>"` payload when dispatch
raises. -/
def dispatchSpec (s : GatewayState) (name : String) (down : Downstream) :
    List TextContent :=
  match odLookup s.tool_map name with
  | none => [{ text := "Error: Unknown tool " ++ q ++ name ++ q }]
  | some pair =>
    match odLookup s.sessions pair.1 with
    | none => [{ text := "Error: No session for server " ++ q ++ pair.1 ++ q }]
    | some _ =>
      match down with
      | .raises m => [{ text := "Error: " ++ m }]
      | .returns none => [{ text := "" }]
      | .returns (some []) => [{ text := "" }]
      | .returns (some (x :: xs)) => x :: xs

/-- An arguments dict with no keys set. -/
def exArgs : Arguments :=
  { admin_token := none, id := none, type_ := none, command := none, args := []
    env := none, url := none, headers := none }

/-- Routing metadata of a direct-callable tool, as the client sees it. -/
def exMetaDirect : ClientMeta :=
  { server_id := some "a", server_type := some "sse", original_name := some "t"
    server_url := some "http://u", direct_call_allowed := some true }

/-- A client in registry mode knowing one direct-callable tool `a.t`. -/
def exClient : ClientState :=
  { hasSingleSession := false
    sessions := [("a", 0)]
    tool_map := [("a.t", ("a", "t"))]
    tool_meta := [("a.t", exMetaDirect)] }

/-- A pipe-type entry with id `x` and one relative argument `y`. -/
def exE9 : ServerEntry :=
  { id := some "x", type_ := some "stdio", command := some "cmd1", args := ["y"]
    env := none, url := none, headers := none }

/-- A connect environment whose file system holds `/base/y`, with working
directory `/cwd`; the transport opens and the initialize phase fails. -/
def exW9 : ConnectWorld :=
  { openOk := true, initOk := false, listOk := true, advertised := []
    fs := ["/base/y"], cwd := "/cwd" }

/-- A connect environment in which every phase succeeds and the downstream
advertises one tool `t`. -/
def exWOK : ConnectWorld :=
  { openOk := true, initOk := true, listOk := true
    advertised := [{ name := "t", description := "d", inputSchema := "s" }]
    fs := [], cwd := "/cwd" }

/-- An SSE-type entry with id `h` and a URL. -/
def exESse : ServerEntry :=
  { id := some "h", type_ := some "sse", command := none, args := []
    env := none, url := some "http://u", headers := none }

/-- The ids of a registry-file server list, in file order (`srv["id"]`,
defaulting like `dict.get` for the id-present entries the loop reaches). -/
def idsOf (servers : List ServerEntry) : List String :=
  servers.map (fun e => e.id.getD "")

/-- A fresh gateway whose registry file holds the single entry `x`. -/
def exSReg : GatewayState :=
  { exSEmpty with file := some [exE1] }

/-- The routing-table entries whose server id is `sid`. -/
def mapEntriesOf (m : List (String × (String × String))) (sid : String) :
    List (String × (String × String)) :=
  m.filter (fun p => p.2.1 == sid)

/-- The routing-table entries of state `s` belonging to server `sid`. -/
def toolMapOf (s : GatewayState) (sid : String) : List (String × (String × String)) :=
  mapEntriesOf s.tool_map sid

/-- The tools of a catalog list whose metadata names server `sid`. -/
def catToolsOf (ts : List Tool) (sid : String) : List Tool :=
  ts.filter (fun t => t.meta.server_id == sid)

/-- The served-catalog tools of state `s` belonging to server `sid`. -/
def catalogOf (s : GatewayState) (sid : String) : List Tool :=
  catToolsOf s.tools sid

/-- The routing-table entries a new connection of `sid` creates. -/
def newMapEntries (sid : String) (adv : List DownTool) :
    List (String × (String × String)) :=
  adv.map (fun t => (sid ++ "." ++ t.name, (sid, t.name)))

/-- The catalog tools a new connection of `sid` creates. -/
def newCatTools (sid ty : String) (url : Option String) (adv : List DownTool) :
    List Tool :=
  adv.map (mkGwTool sid ty url)

/-! ### Dict-model lemmas -/

theorem odLookup_odInsert_self {α : Type} (m : List (String × α)) (k : String)
    (v : α) : odLookup (odInsert m k v) k = some v := by
  induction m with
  | nil => simp [odInsert, odLookup]
  | cons hd tl ih =>
      obtain ⟨k1, v1⟩ := hd
      by_cases h : k1 = k
      · simp [odInsert, h, odLookup]
      · simp [odInsert, h, odLookup, ih]

theorem odLookup_odInsert_ne {α : Type} (m : List (String × α)) (k key : String)
    (v : α) (h : key ≠ k) : odLookup (odInsert m k v) key = odLookup m key := by
  have h2 : ¬ k = key := fun hh => h hh.symm
  induction m with
  | nil => simp [odInsert, odLookup, h2]
  | cons hd tl ih =>
      obtain ⟨k1, v1⟩ := hd
      by_cases h1 : k1 = k
      · subst h1
        simp [odInsert, odLookup, h2]
      · simp [odInsert, odLookup, h1, ih]

theorem odMem_odInsert_self {α : Type} (m : List (String × α)) (k : String)
    (v : α) : odMem (odInsert m k v) k = true := by
  simp [odMem, odLookup_odInsert_self]

theorem odErase_odInsert {α : Type} (m : List (String × α)) (k : String) (v : α) :
    odErase (odInsert m k v) k = odErase m k := by
  induction m with
  | nil => simp [odInsert, odErase]
  | cons hd tl ih =>
      obtain ⟨k1, v1⟩ := hd
      by_cases h : k1 = k <;> simp [odInsert, odErase, h, ih]

theorem odErase_sublist {α : Type} (m : List (String × α)) (k : String) :
    List.Sublist (odErase m k) m := by
  induction m with
  | nil => simp [odErase]
  | cons hd tl ih =>
      obtain ⟨k1, v1⟩ := hd
      by_cases h : k1 = k
      · rw [odErase, if_pos h]
        exact List.sublist_cons_self (k1, v1) tl
      · rw [odErase, if_neg h]
        exact List.Sublist.cons₂ (k1, v1) ih

theorem mem_of_mem_odErase {α : Type} {m : List (String × α)} {k : String}
    {a : String × α} (h : a ∈ odErase m k) : a ∈ m :=
  (odErase_sublist m k).subset h

theorem mem_odInsert {α : Type} {m : List (String × α)} {k : String} {v : α}
    {a : String × α} (h : a ∈ odInsert m k v) : a = (k, v) ∨ a ∈ m := by
  induction m with
  | nil => simpa [odInsert] using h
  | cons hd tl ih =>
      obtain ⟨k1, v1⟩ := hd
      by_cases h1 : k1 = k
      · subst h1
        rcases (by simpa [odInsert] using h : a = (k1, v) ∨ a ∈ tl) with h2 | h2
        · exact Or.inl h2
        · exact Or.inr (List.mem_cons_of_mem _ h2)
      · rcases (by simpa [odInsert, h1] using h : a = (k1, v1) ∨ a ∈ odInsert tl k v) with h2 | h2
        · exact Or.inr (by simp [h2])
        · rcases ih h2 with h3 | h3
          · exact Or.inl h3
          · exact Or.inr (List.mem_cons_of_mem _ h3)

theorem odKeys_odErase_sublist {α : Type} (m : List (String × α)) (k : String) :
    List.Sublist (odKeys (odErase m k)) (odKeys m) :=
  List.Sublist.map Prod.fst (odErase_sublist m k)

theorem odWF_odErase {α : Type} {m : List (String × α)} (k : String)
    (h : odWF m) : odWF (odErase m k) :=
  List.Nodup.sublist (odKeys_odErase_sublist m k) h

/-- Under unique keys, dict deletion is exactly filtering the key out. -/
theorem odErase_eq_filter {α : Type} {m : List (String × α)} {k : String}
    (h : odWF m) : odErase m k = m.filter (fun p => !(p.1 == k)) := by
  induction m with
  | nil => simp [odErase]
  | cons hd tl ih =>
      obtain ⟨k1, v1⟩ := hd
      have hk : k1 ∉ odKeys tl := by
        have := (List.nodup_cons.mp h).1
        simpa [odKeys] using this
      have htl : odWF tl := (List.nodup_cons.mp h).2
      by_cases h1 : k1 = k
      · subst h1
        have : tl.filter (fun p => !(p.1 == k1)) = tl := by
          apply List.filter_eq_self.mpr
          intro p hp
          have : p.1 ≠ k1 := by
            intro hc
            exact hk (by simpa [odKeys, hc] using List.mem_map_of_mem Prod.fst hp)
          simpa using this
        simp [odErase, this]
      · simp [odErase, h1, ih htl]

theorem odLookup_eq_none_of_not_mem_keys {α : Type} {m : List (String × α)}
    {k : String} (h : k ∉ odKeys m) : odLookup m k = none := by
  induction m with
  | nil => simp [odLookup]
  | cons hd tl ih =>
      obtain ⟨k1, v1⟩ := hd
      have h1 : k1 ≠ k := by
        intro hc
        exact h (by simp [odKeys, hc])
      have h2 : k ∉ odKeys tl := by
        intro hc
        exact h (by simp [odKeys] at hc ⊢; exact Or.inr hc)
      simp [odLookup, h1, ih h2]

theorem odLookup_odErase_self {α : Type} {m : List (String × α)} {k : String}
    (h : odWF m) : odLookup (odErase m k) k = none := by
  rw [odErase_eq_filter h]
  apply odLookup_eq_none_of_not_mem_keys
  intro hc
  simp only [odKeys, List.mem_map] at hc
  obtain ⟨p, hp, hpk⟩ := hc
  have := List.of_mem_filter hp
  simp [hpk] at this

/-- C1: the code violates the claimed memory/file convergence.  Failing
input: starting from the state where server `x` is registered, connected and
persisted, `register_server` is called with a replacement entry for the same
id `x` whose connect attempt fails at the initialize phase.  The call returns
a structured error, yet afterwards the in-memory registry is empty while the
durable registry file still contains the old entry for `x` — a divergence
visible to every subsequent `list_registry` or file read, because the rollback
deletes the replaced entry instead of restoring it and never rewrites the
file. -/
theorem c1_convergence_violated_at_failing_input :
    (register_server exS0 exE2 exWInitFail).2.1.status = "error" ∧
    list_registry (register_server exS0 exE2 exWInitFail).1 = [] ∧
    (register_server exS0 exE2 exWInitFail).1.file = some [exE1] ∧
    list_registry (register_server exS0 exE2 exWInitFail).1 ≠
      ((register_server exS0 exE2 exWInitFail).1.file).getD [] := by
  decide

/-- C8: the code leaks resources on a failed connect.  Failing input: a
register call for the pipe-type entry `x` on a fresh gateway, where the
transport opens (handle 0), the session is created (handle 1) and the
initialize phase then times out.  After the error is surfaced both handles are
still open, and none of the gateway maps references them, so neither the
rollback (which already ran) nor any later disconnect or shutdown can ever
close them — the transport and session created by the failed attempt are
leaked, contradicting the claimed full release. -/
theorem c8_failed_connect_leaks_resources :
    (register_server exSEmpty exE1 exWInitFail).2.1.status = "error" ∧
    (register_server exSEmpty exE1 exWInitFail).1.openRes = [0, 1] ∧
    (register_server exSEmpty exE1 exWInitFail).1.sessions = [] ∧
    (register_server exSEmpty exE1 exWInitFail).1.stdio_contexts = [] ∧
    (register_server exSEmpty exE1 exWInitFail).1.http_clients = [] := by
  decide

/-- C9 counterexample: the claimed rule — resolve against the base directory
exactly when the base-resolved path exists, otherwise pass the argument
through unchanged — is false at the concrete input where `x` exists relative
to the process working directory (`/cwd/x` is on disk) but `/base/x` is not:
the code still resolves the argument to `/base/x`. -/
theorem c9_claimed_rule_false :
    ¬ (resolveArg ["/cwd/x"] "/cwd" "/base" "x" =
        (if pathExists ["/cwd/x"] "/cwd" (joinPath "/base" "x") then
          resolvePath "/cwd" (joinPath "/base" "x")
        else "x")) := by
  decide

/-! ### Frame (shape) lemmas: which state fields each operation may change -/

theorem discSessions_shape (s : GatewayState) (sid : String) :
    ∃ a b, (discSessions s sid).1 = { s with sessions := a, openRes := b } := by
  cases h : odLookup s.sessions sid with
  | none => exact ⟨s.sessions, s.openRes, by simp [discSessions, h]⟩
  | some rid =>
      exact ⟨odErase s.sessions sid, s.openRes.erase rid,
        by simp [discSessions, h, closeRes]⟩

theorem discContexts_shape (s : GatewayState) (sid : String) :
    ∃ a b, (discContexts s sid).1 = { s with stdio_contexts := a, openRes := b } := by
  cases h : odLookup s.stdio_contexts sid with
  | none => exact ⟨s.stdio_contexts, s.openRes, by simp [discContexts, h]⟩
  | some rid =>
      exact ⟨odErase s.stdio_contexts sid, s.openRes.erase rid,
        by simp [discContexts, h, closeRes]⟩

theorem discHttp_shape (s : GatewayState) (sid : String) :
    ∃ a b, (discHttp s sid).1 = { s with http_clients := a, openRes := b } := by
  cases h : odLookup s.http_clients sid with
  | none => exact ⟨s.http_clients, s.openRes, by simp [discHttp, h]⟩
  | some rid =>
      exact ⟨odErase s.http_clients sid, s.openRes.erase rid,
        by simp [discHttp, h, closeRes]⟩

theorem discServerTools_shape (s : GatewayState) (sid : String) :
    ∃ a, (discServerTools s sid).1 = { s with server_tools := a } := by
  by_cases h : odMem s.server_tools sid
  · exact ⟨odErase s.server_tools sid, by simp [discServerTools, h]⟩
  · exact ⟨s.server_tools, by simp [discServerTools, h]⟩

theorem delToolMapSeq_shape (l : List String) (s : GatewayState) :
    ∃ a, (delToolMapSeq s l).1 = { s with tool_map := a } := by
  induction l generalizing s with
  | nil => exact ⟨s.tool_map, by simp [delToolMapSeq]⟩
  | cons n rest ih =>
      obtain ⟨a, ha⟩ := ih { s with tool_map := odErase s.tool_map n }
      exact ⟨a, by simp only [delToolMapSeq]; exact ha⟩

theorem delToolMapSeq_trace_shape (l : List String) (s : GatewayState) :
    ∀ t ∈ (delToolMapSeq s l).2, ∃ a, t = { s with tool_map := a } := by
  induction l generalizing s with
  | nil => intro t ht; simp [delToolMapSeq] at ht
  | cons n rest ih =>
      intro t ht
      simp only [delToolMapSeq, List.mem_cons] at ht
      rcases ht with h | h
      · exact ⟨odErase s.tool_map n, h⟩
      · obtain ⟨a, ha⟩ := ih { s with tool_map := odErase s.tool_map n } t h
        exact ⟨a, ha⟩

theorem addToolsSeq_shape (l : List DownTool) (s : GatewayState)
    (sid ty : String) (url : Option String) :
    ∃ a, (addToolsSeq s sid ty url l).1 = { s with tool_map := a } := by
  induction l generalizing s with
  | nil => exact ⟨s.tool_map, by simp [addToolsSeq]⟩
  | cons t rest ih =>
      obtain ⟨a, ha⟩ :=
        ih { s with tool_map := odInsert s.tool_map (mkGwTool sid ty url t).name (sid, t.name) }
      exact ⟨a, by simp only [addToolsSeq]; exact ha⟩

theorem addToolsSeq_trace_shape (l : List DownTool) (s : GatewayState)
    (sid ty : String) (url : Option String) :
    ∀ t ∈ (addToolsSeq s sid ty url l).2.2, ∃ a, t = { s with tool_map := a } := by
  induction l generalizing s with
  | nil => intro t ht; simp [addToolsSeq] at ht
  | cons hd rest ih =>
      intro t ht
      simp only [addToolsSeq, List.mem_cons] at ht
      rcases ht with h | h
      · exact ⟨odInsert s.tool_map (mkGwTool sid ty url hd).name (sid, hd.name), h⟩
      · obtain ⟨a, ha⟩ := ih
          { s with tool_map := odInsert s.tool_map (mkGwTool sid ty url hd).name (sid, hd.name) } t h
        exact ⟨a, ha⟩

theorem addToolsSeq_toolsList (l : List DownTool) (s : GatewayState)
    (sid ty : String) (url : Option String) :
    (addToolsSeq s sid ty url l).2.1 = l.map (mkGwTool sid ty url) := by
  induction l generalizing s with
  | nil => simp [addToolsSeq]
  | cons hd rest ih => simp only [addToolsSeq, List.map]; rw [ih]

theorem disconnect_entry_shape (s : GatewayState) (sid : String) :
    ∃ a b c d e f, (disconnect_entry s sid).1 =
      { s with sessions := a, stdio_contexts := b, http_clients := c,
               server_tools := d, tool_map := e, openRes := f } := by
  obtain ⟨a1, b1, e1⟩ := discSessions_shape s sid
  obtain ⟨a2, b2, e2⟩ := discContexts_shape (discSessions s sid).1 sid
  obtain ⟨a3, b3, e3⟩ := discHttp_shape (discContexts (discSessions s sid).1 sid).1 sid
  obtain ⟨a4, e4⟩ :=
    discServerTools_shape (discHttp (discContexts (discSessions s sid).1 sid).1 sid).1 sid
  obtain ⟨a5, e5⟩ := delToolMapSeq_shape
    ((((discServerTools (discHttp (discContexts (discSessions s sid).1 sid).1 sid).1
        sid).1.tool_map.filter (fun p => p.2.1 == sid)).map Prod.fst))
    (discServerTools (discHttp (discContexts (discSessions s sid).1 sid).1 sid).1 sid).1
  refine ⟨a1, a2, a3, a4, a5, b3, ?_⟩
  show (delToolMapSeq _ _).1 = _
  rw [e5, e4, e3, e2, e1]

theorem disconnect_entry_preserves (s : GatewayState) (sid : String) :
    (disconnect_entry s sid).1.registry_entries = s.registry_entries ∧
    (disconnect_entry s sid).1.file = s.file ∧
    (disconnect_entry s sid).1.tools = s.tools ∧
    (disconnect_entry s sid).1.nextRid = s.nextRid ∧
    (disconnect_entry s sid).1.base_dir = s.base_dir ∧
    (disconnect_entry s sid).1.spawned = s.spawned := by
  obtain ⟨a, b, c, d, e, f, h⟩ := disconnect_entry_shape s sid
  rw [h]
  exact ⟨rfl, rfl, rfl, rfl, rfl, rfl⟩

theorem sessionPhases_shape (server : ServerEntry) (sid ty : String) (trid : Nat)
    (w : ConnectWorld) (tr0 : List GatewayState) (s1 : GatewayState) :
    ∃ a b c d e f, (sessionPhases s1 server sid ty trid w tr0).s =
      { s1 with sessions := a, stdio_contexts := b, server_tools := c,
                tool_map := d, openRes := e, nextRid := f } := by
  by_cases hi : w.initOk
  · by_cases hl : w.listOk
    · obtain ⟨a, ha⟩ := addToolsSeq_shape w.advertised
        (GatewayState.mk s1.base_dir s1.registry_entries s1.sessions
          s1.stdio_contexts s1.http_clients s1.server_tools s1.tools s1.tool_map
          s1.file (s1.openRes ++ [s1.nextRid]) (s1.nextRid + 1) s1.spawned)
        sid ty server.url
      refine ⟨odInsert s1.sessions sid s1.nextRid, odInsert s1.stdio_contexts sid trid,
        odInsert s1.server_tools sid
          ((addToolsSeq
            (GatewayState.mk s1.base_dir s1.registry_entries s1.sessions
          s1.stdio_contexts s1.http_clients s1.server_tools s1.tools s1.tool_map
          s1.file (s1.openRes ++ [s1.nextRid]) (s1.nextRid + 1) s1.spawned)
            sid ty server.url w.advertised).2.1),
        a, s1.openRes ++ [s1.nextRid], s1.nextRid + 1, ?_⟩
      simp only [sessionPhases, hi, hl, Bool.not_true, Bool.false_eq_true, if_false]
      rw [ha]
    · exact ⟨s1.sessions, s1.stdio_contexts, s1.server_tools, s1.tool_map,
        s1.openRes ++ [s1.nextRid], s1.nextRid + 1,
        by simp [sessionPhases, hi, hl]⟩
  · exact ⟨s1.sessions, s1.stdio_contexts, s1.server_tools, s1.tool_map,
      s1.openRes ++ [s1.nextRid], s1.nextRid + 1,
      by simp [sessionPhases, hi]⟩

theorem odMem_odInsert_of_mem {α : Type} {m : List (String × α)} {k : String}
    (key : String) (v : α) (h : odMem m k = true) :
    odMem (odInsert m key v) k = true := by
  by_cases hk : k = key
  · subst hk
    simp [odMem, odLookup_odInsert_self]
  · rw [odMem, odLookup_odInsert_ne _ _ _ _ hk]
    exact h

/-- `sessionPhases` never touches the registry, the file, the served catalog,
the base directory, the HTTP-client map or the spawn record. -/
@[simp] theorem sessionPhases_frame (server : ServerEntry) (sid ty : String)
    (trid : Nat) (w : ConnectWorld) (tr0 : List GatewayState) (s1 : GatewayState) :
    (sessionPhases s1 server sid ty trid w tr0).s.registry_entries = s1.registry_entries ∧
    (sessionPhases s1 server sid ty trid w tr0).s.file = s1.file ∧
    (sessionPhases s1 server sid ty trid w tr0).s.tools = s1.tools ∧
    (sessionPhases s1 server sid ty trid w tr0).s.base_dir = s1.base_dir ∧
    (sessionPhases s1 server sid ty trid w tr0).s.http_clients = s1.http_clients ∧
    (sessionPhases s1 server sid ty trid w tr0).s.spawned = s1.spawned := by
  obtain ⟨a, b, c, d, e, f, h⟩ := sessionPhases_shape server sid ty trid w tr0 s1
  rw [h]
  exact ⟨rfl, rfl, rfl, rfl, rfl, rfl⟩

/-- `_connect_entry` never touches the registry, the file, the served catalog
or the base directory. -/
@[simp] theorem connect_entry_frame (s0 : GatewayState) (server : ServerEntry)
    (w : ConnectWorld) :
    (connect_entry s0 server w).s.registry_entries = s0.registry_entries ∧
    (connect_entry s0 server w).s.file = s0.file ∧
    (connect_entry s0 server w).s.tools = s0.tools ∧
    (connect_entry s0 server w).s.base_dir = s0.base_dir := by
  cases hid : truthyOptStr server.id with
  | none => simp [connect_entry, hid]
  | some sid =>
      by_cases h1 : (server.type_.getD "stdio") = "stdio"
      · by_cases ho : w.openOk <;>
          simp [connect_entry, hid, h1, ho, openTransport]
      · by_cases h2 : (server.type_.getD "stdio") = "sse"
        · by_cases hu : urlOkFor server
          · by_cases ho : w.openOk <;>
              simp [connect_entry, hid, h1, h2, hu, ho, openTransport]
          · simp [connect_entry, hid, h1, h2, hu]
        · by_cases h3 : (server.type_.getD "stdio") = "streamable-http"
          · by_cases hu : urlOkFor server
            · by_cases ho : w.openOk <;>
                simp [connect_entry, hid, h1, h2, h3, hu, ho, openTransport]
            · simp [connect_entry, hid, h1, h2, h3, hu]
          · simp [connect_entry, hid, h1, h2, h3]

theorem sessionPhases_sessions_initFail (server : ServerEntry) (sid ty : String)
    (trid : Nat) (w : ConnectWorld) (tr0 : List GatewayState) (s1 : GatewayState)
    (h : w.initOk = false) :
    (sessionPhases s1 server sid ty trid w tr0).s.sessions = s1.sessions := by
  simp [sessionPhases, h]

theorem sessionPhases_sessions_listFail (server : ServerEntry) (sid ty : String)
    (trid : Nat) (w : ConnectWorld) (tr0 : List GatewayState) (s1 : GatewayState)
    (h : w.listOk = false) :
    (sessionPhases s1 server sid ty trid w tr0).s.sessions = s1.sessions := by
  cases hi : w.initOk <;> simp [sessionPhases, hi, h]

theorem sessionPhases_sessions_of_ok (server : ServerEntry) (sid ty : String)
    (trid : Nat) (w : ConnectWorld) (tr0 : List GatewayState) (s1 : GatewayState)
    (hi : w.initOk = true) (hl : w.listOk = true) :
    (sessionPhases s1 server sid ty trid w tr0).s.sessions =
      odInsert s1.sessions sid s1.nextRid := by
  obtain ⟨a, ha⟩ := addToolsSeq_shape w.advertised
    { s1 with nextRid := s1.nextRid + 1, openRes := s1.openRes ++ [s1.nextRid] }
    sid ty server.url
  simp only [sessionPhases, hi, hl, Bool.not_true, Bool.false_eq_true, if_false]
  rw [ha]

/-- On a fully successful phase run, `sessionPhases` raises nothing and stores
the namespaced tool list for the server id. -/
theorem sessionPhases_success (server : ServerEntry) (sid ty : String)
    (trid : Nat) (w : ConnectWorld) (tr0 : List GatewayState) (s1 : GatewayState)
    (hi : w.initOk = true) (hl : w.listOk = true) :
    (sessionPhases s1 server sid ty trid w tr0).err = none ∧
    (sessionPhases s1 server sid ty trid w tr0).s.server_tools =
      odInsert s1.server_tools sid (w.advertised.map (mkGwTool sid ty server.url)) := by
  obtain ⟨a, ha⟩ := addToolsSeq_shape w.advertised
    { s1 with nextRid := s1.nextRid + 1, openRes := s1.openRes ++ [s1.nextRid] }
    sid ty server.url
  constructor
  · simp [sessionPhases, hi, hl]
  · simp only [sessionPhases, hi, hl, Bool.not_true, Bool.false_eq_true, if_false]
    rw [addToolsSeq_toolsList, ha]

theorem sessionPhases_err_initFail (server : ServerEntry) (sid ty : String)
    (trid : Nat) (w : ConnectWorld) (tr0 : List GatewayState) (s1 : GatewayState)
    (h : w.initOk = false) :
    (sessionPhases s1 server sid ty trid w tr0).err.isSome = true := by
  simp [sessionPhases, h]

theorem sessionPhases_err_listFail (server : ServerEntry) (sid ty : String)
    (trid : Nat) (w : ConnectWorld) (tr0 : List GatewayState) (s1 : GatewayState)
    (h : w.listOk = false) :
    (sessionPhases s1 server sid ty trid w tr0).err.isSome = true := by
  cases hi : w.initOk <;> simp [sessionPhases, hi, h]

theorem sessionPhases_err_isSome_cases (server : ServerEntry) (sid ty : String)
    (trid : Nat) (w : ConnectWorld) (tr0 : List GatewayState) (s1 : GatewayState)
    (h : (sessionPhases s1 server sid ty trid w tr0).err.isSome = true) :
    w.initOk = false ∨ w.listOk = false := by
  cases hi : w.initOk
  · exact Or.inl rfl
  · cases hl : w.listOk
    · exact Or.inr rfl
    · exfalso
      simp [sessionPhases, hi, hl] at h

/-- A connect attempt that raises leaves the session map untouched. -/
theorem connect_entry_sessions_of_err (s0 : GatewayState) (server : ServerEntry)
    (w : ConnectWorld) (h : (connect_entry s0 server w).err.isSome = true) :
    (connect_entry s0 server w).s.sessions = s0.sessions := by
  cases hid : truthyOptStr server.id with
  | none => simp [connect_entry, hid]
  | some sid =>
      by_cases h1 : (server.type_.getD "stdio") = "stdio"
      · cases ho : w.openOk
        · simp [connect_entry, hid, h1, ho]
        · cases hi : w.initOk
          · simp [connect_entry, hid, h1, ho, openTransport,
              sessionPhases_sessions_initFail _ _ _ _ _ _ _ hi]
          · cases hl : w.listOk
            · simp [connect_entry, hid, h1, ho, openTransport,
                sessionPhases_sessions_listFail _ _ _ _ _ _ _ hl]
            · exfalso
              simp only [connect_entry, hid] at h
              simp [h1, ho, openTransport] at h
              rcases sessionPhases_err_isSome_cases _ _ _ _ _ _ _ h with hbad | hbad
              · simp [hi] at hbad
              · simp [hl] at hbad
      · by_cases h2 : (server.type_.getD "stdio") = "sse"
        · by_cases hu : urlOkFor server
          · cases ho : w.openOk
            · simp [connect_entry, hid, h1, h2, hu, ho]
            · cases hi : w.initOk
              · simp [connect_entry, hid, h1, h2, hu, ho, openTransport,
                  sessionPhases_sessions_initFail _ _ _ _ _ _ _ hi]
              · cases hl : w.listOk
                · simp [connect_entry, hid, h1, h2, hu, ho, openTransport,
                    sessionPhases_sessions_listFail _ _ _ _ _ _ _ hl]
                · exfalso
                  simp only [connect_entry, hid] at h
                  simp [h1, h2, hu, ho, openTransport] at h
                  rcases sessionPhases_err_isSome_cases _ _ _ _ _ _ _ h with hbad | hbad
                  · simp [hi] at hbad
                  · simp [hl] at hbad
          · simp [connect_entry, hid, h1, h2, hu]
        · by_cases h3 : (server.type_.getD "stdio") = "streamable-http"
          · by_cases hu : urlOkFor server
            · cases ho : w.openOk
              · simp [connect_entry, hid, h1, h2, h3, hu, ho]
              · cases hi : w.initOk
                · simp [connect_entry, hid, h1, h2, h3, hu, ho, openTransport,
                    sessionPhases_sessions_initFail _ _ _ _ _ _ _ hi]
                · cases hl : w.listOk
                  · simp [connect_entry, hid, h1, h2, h3, hu, ho, openTransport,
                      sessionPhases_sessions_listFail _ _ _ _ _ _ _ hl]
                  · exfalso
                    simp only [connect_entry, hid] at h
                    simp [h1, h2, h3, hu, ho, openTransport] at h
                    rcases sessionPhases_err_isSome_cases _ _ _ _ _ _ _ h with hbad | hbad
                    · simp [hi] at hbad
                    · simp [hl] at hbad
            · simp [connect_entry, hid, h1, h2, h3, hu]
          · simp [connect_entry, hid, h1, h2, h3]

theorem sessionPhases_err_none {server : ServerEntry} {sid ty : String}
    {trid : Nat} {w : ConnectWorld} {tr0 : List GatewayState} {s1 : GatewayState}
    (h : (sessionPhases s1 server sid ty trid w tr0).err = none) :
    w.initOk = true ∧ w.listOk = true := by
  cases hi : w.initOk
  · exfalso
    simp [sessionPhases, hi] at h
  · cases hl : w.listOk
    · exfalso
      simp [sessionPhases, hi, hl] at h
    · exact ⟨rfl, rfl⟩

/-- A connect attempt that returns normally stores a session for the
(truthy) id of the entry, and changes the session map in no other way. -/
theorem connect_entry_sessions_of_ok (s0 : GatewayState) (server : ServerEntry)
    (w : ConnectWorld) (h : (connect_entry s0 server w).err = none) :
    ∃ sid rid, truthyOptStr server.id = some sid ∧
      (connect_entry s0 server w).s.sessions = odInsert s0.sessions sid rid := by
  cases hid : truthyOptStr server.id with
  | none =>
      exfalso
      simp [connect_entry, hid] at h
  | some sid =>
      by_cases h1 : (server.type_.getD "stdio") = "stdio"
      · cases ho : w.openOk
        · exfalso
          simp [connect_entry, hid, h1, ho] at h
        · have h9 := h
          simp only [connect_entry, hid] at h9
          simp only [h1, ho, openTransport, beq_self_eq_true, if_true, ite_true] at h9
          obtain ⟨hi, hl⟩ := sessionPhases_err_none h9
          exact ⟨sid, s0.nextRid + 1, rfl, by
            simp [connect_entry, hid, h1, ho, openTransport,
              sessionPhases_sessions_of_ok, hi, hl]⟩
      · by_cases h2 : (server.type_.getD "stdio") = "sse"
        · by_cases hu : urlOkFor server
          · cases ho : w.openOk
            · exfalso
              simp [connect_entry, hid, h1, h2, hu, ho] at h
            · have h9 := h
              simp only [connect_entry, hid] at h9
              simp only [h1, h2, hu, ho, openTransport, beq_self_eq_true,
                Bool.not_true, Bool.false_eq_true, if_false, if_true, ite_true,
                beq_iff_eq, if_neg h1] at h9
              obtain ⟨hi, hl⟩ := sessionPhases_err_none h9
              exact ⟨sid, s0.nextRid + 1, rfl, by
                simp [connect_entry, hid, h1, h2, hu, ho, openTransport,
                  sessionPhases_sessions_of_ok, hi, hl]⟩
          · exfalso
            simp [connect_entry, hid, h1, h2, hu] at h
        · by_cases h3 : (server.type_.getD "stdio") = "streamable-http"
          · by_cases hu : urlOkFor server
            · cases ho : w.openOk
              · exfalso
                simp [connect_entry, hid, h1, h2, h3, hu, ho] at h
              · have h9 := h
                simp only [connect_entry, hid] at h9
                simp only [h1, h2, h3, hu, ho, openTransport, beq_self_eq_true,
                  Bool.not_true, Bool.false_eq_true, if_false, if_true, ite_true,
                  beq_iff_eq, if_neg h1, if_neg h2] at h9
                obtain ⟨hi, hl⟩ := sessionPhases_err_none h9
                exact ⟨sid, s0.nextRid + 1 + 1, rfl, by
                  simp [connect_entry, hid, h1, h2, h3, hu, ho, openTransport,
                    sessionPhases_sessions_of_ok, hi, hl]⟩
            · exfalso
              simp [connect_entry, hid, h1, h2, h3, hu] at h
          · exfalso
            simp [connect_entry, hid, h1, h2, h3] at h

theorem odMem_odErase_self {α : Type} {m : List (String × α)} (k : String)
    (h : odWF m) : odMem (odErase m k) k = false := by
  simp [odMem, odLookup_odErase_self h]

/-- C2: a register call whose connect attempt fails (the call reports
`status = "error"`; with a truthy id this happens exactly when the connect
attempt raised) returns its structured failure instead of raising — the model
of `register_server` is a total function into `AdminResult` — removes the
just-recorded entry from the in-memory registry, and leaves the durable
registry file exactly as it was: persistence runs only on the success path. -/
theorem c2_failed_register_rolls_back (s0 : GatewayState) (server : ServerEntry)
    (w : ConnectWorld) (sid : String)
    (hid : truthyOptStr server.id = some sid)
    (hwf : odWF s0.registry_entries)
    (hfail : (register_server s0 server w).2.1.status = "error") :
    odMem (register_server s0 server w).1.registry_entries sid = false ∧
    (register_server s0 server w).1.file = s0.file := by
  by_cases hmem : odMem s0.registry_entries sid = true
  · simp only [register_server, hid, hmem, if_true, ite_true] at hfail ⊢
    split at hfail
    · exfalso
      simp at hfail
    · simp [disconnect_entry_preserves, odMem_odInsert_self, odErase_odInsert,
        odMem_odErase_self, hwf]
  · have hmem2 : odMem s0.registry_entries sid = false := by
      simpa using hmem
    simp only [register_server, hid, hmem2, Bool.false_eq_true, if_false, ite_false] at hfail ⊢
    split at hfail
    · exfalso
      simp at hfail
    · simp [disconnect_entry_preserves, odMem_odInsert_self, odErase_odInsert,
        odMem_odErase_self, hwf]

/-- C4: the protocol-level tool-call handler, on every non-admin name, matches
the spec dispatch exactly: UnknownTool-shaped error text for names outside the
routing table, NoSession-shaped error text when the owning server has no live
session, the forwarded downstream content otherwise (with one empty text item
when the response carries no content), and a `"Error: <message>"` payload —
never a propagated exception (the handler is a total function) — when the
downstream call raises.  The handler leaves the state untouched. -/
theorem c4_dispatch_matches_spec (secret : Option String) (s : GatewayState)
    (name : String) (a : Arguments) (w : ConnectWorld) (down : Downstream)
    (hadmin : strStartsWith name "admin." = false) :
    app_call_tool secret true s name a w down = (s, dispatchSpec s name down, []) := by
  simp only [app_call_tool, hadmin, Bool.not_true, Bool.false_eq_true, if_false,
    Bool.not_false, if_true, ite_true, ite_false]
  cases h1 : odLookup s.tool_map name with
  | none => simp [gw_call_tool, dispatchSpec, h1]
  | some pair =>
      cases h2 : odLookup s.sessions pair.1 with
      | none => simp [gw_call_tool, dispatchSpec, h1, h2]
      | some rid =>
          cases down with
          | raises m => simp [gw_call_tool, dispatchSpec, h1, h2]
          | returns c =>
              cases c with
              | none => simp [gw_call_tool, dispatchSpec, contentOrEmpty, h1, h2]
              | some lst =>
                  cases lst <;> simp [gw_call_tool, dispatchSpec, contentOrEmpty, h1, h2]

/-- C4 witness: dispatching the known tool `x.t` with a live session and a
one-item downstream response returns exactly that content. -/
theorem c4_dispatch_matches_spec_witness :
    app_call_tool none true exS0 "x.t" exArgs exWInitFail
        (Downstream.returns (some [{ text := "8" }])) =
      (exS0, [{ text := "8" }], []) := by
  have h := c4_dispatch_matches_spec none exS0 "x.t" exArgs exWInitFail
    (Downstream.returns (some [{ text := "8" }])) (by decide)
  rw [h]
  decide

/-- C6: the client chooses the direct path for a dispatched invocation exactly
when the tool metadata has a truthy `direct_call_allowed`, a network-stream
`server_type` (`sse` or `streamable-http`) and a truthy `server_url`; every
other successfully dispatched call goes through the connected session
(gateway-mediated). -/
theorem c6_direct_route_iff (c : ClientState) (name : String) (r : Route)
    (h : client_call_tool c name = Except.ok r) :
    (r = Route.direct ↔
      (truthyOptBool (clientMetaOf c name).direct_call_allowed = true ∧
       ((clientMetaOf c name).server_type = some "sse" ∨
        (clientMetaOf c name).server_type = some "streamable-http") ∧
       truthyUrl (clientMetaOf c name).server_url = true)) := by
  have hcond : ∀ m : ClientMeta, directRouteCond m = true ↔
      (truthyOptBool m.direct_call_allowed = true ∧
       (m.server_type = some "sse" ∨ m.server_type = some "streamable-http") ∧
       truthyUrl m.server_url = true) := by
    intro m
    simp [directRouteCond, and_assoc]
  rw [← hcond]
  cases hs : (c.sessions != []) with
  | true =>
      cases h1 : odLookup c.tool_map name with
      | none =>
          exfalso
          simp [client_call_tool, hs, h1] at h
      | some pair =>
          by_cases hc : directRouteCond ((odLookup c.tool_meta name).getD emptyMeta) = true
          · simp only [client_call_tool, hs, h1, hc, if_true, ite_true] at h
            have hr : r = Route.direct := by
              cases h
              rfl
            simp [hr, clientMetaOf, hc]
          · have hc2 : directRouteCond ((odLookup c.tool_meta name).getD emptyMeta) = false := by
              simpa using hc
            cases h2 : odLookup c.sessions pair.1 with
            | none =>
                exfalso
                simp [client_call_tool, hs, h1, hc2, h2] at h
            | some rid =>
                simp only [client_call_tool, hs, h1, hc2, h2, Bool.false_eq_true,
                  if_false, ite_false] at h
                have hr : r = Route.gatewayMediated := by
                  cases h
                  rfl
                simp [hr, clientMetaOf, hc2]
  | false =>
      cases hss : c.hasSingleSession with
      | false =>
          exfalso
          simp [client_call_tool, hs, hss] at h
      | true =>
          by_cases hc : directRouteCond ((odLookup c.tool_meta name).getD emptyMeta) = true
          · simp only [client_call_tool, hs, hss, hc, Bool.not_true, Bool.false_eq_true,
              if_false, if_true, ite_true, ite_false] at h
            have hr : r = Route.direct := by
              cases h
              rfl
            simp [hr, clientMetaOf, hc]
          · have hc2 : directRouteCond ((odLookup c.tool_meta name).getD emptyMeta) = false := by
              simpa using hc
            simp only [client_call_tool, hs, hss, hc2, Bool.not_true, Bool.false_eq_true,
              if_false, if_true, ite_true, ite_false] at h
            have hr : r = Route.gatewayMediated := by
              cases h
              rfl
            simp [hr, clientMetaOf, hc2]

/-- C6 witness: the tool `a.t` (direct allowed, SSE type, URL present) is
routed direct. -/
theorem c6_direct_route_iff_witness :
    client_call_tool exClient "a.t" = Except.ok Route.direct ∧
    (Route.direct = Route.direct ↔
      (truthyOptBool (clientMetaOf exClient "a.t").direct_call_allowed = true ∧
       ((clientMetaOf exClient "a.t").server_type = some "sse" ∨
        (clientMetaOf exClient "a.t").server_type = some "streamable-http") ∧
       truthyUrl (clientMetaOf exClient "a.t").server_url = true)) :=
  ⟨by rfl, c6_direct_route_iff exClient "a.t" Route.direct (by rfl)⟩

/-- C7: when a non-empty admin secret is configured, every admin-named call
whose supplied token differs from the secret (a missing token included, since
`admin_token := none` models both an absent key and a stripped `null`) returns
the unauthorized payload and leaves the gateway state — registry, file,
connections, catalog — exactly unchanged; when no secret is configured (unset
or empty, which Python falsiness treats alike), the admin gate accepts every
arguments dict, whatever its token field. -/
theorem c7_admin_gate (secret : Option String) (t : String) (s : GatewayState)
    (name : String) (a : Arguments) (w : ConnectWorld) (down : Downstream) :
    (secret = some t → t ≠ "" → a.admin_token ≠ some t →
      strStartsWith name "admin." = true →
      app_call_tool secret true s name a w down =
        (s, [{ text := "Error: unauthorized" }], [])) ∧
    is_admin_ok none a = true ∧
    is_admin_ok (some "") a = true := by
  refine ⟨?_, by simp [is_admin_ok, truthyOptStr], by simp [is_admin_ok, truthyOptStr]⟩
  intro hs ht htok hn
  subst hs
  have hbeq : (a.admin_token == some t) = false := by
    cases hat : a.admin_token with
    | none => rfl
    | some u =>
        have : u ≠ t := by
          intro hc
          exact htok (by rw [hat, hc])
        simp [this]
  have hgate : is_admin_ok (some t) a = false := by
    simp [is_admin_ok, truthyOptStr, ht, hbeq]
  simp [app_call_tool, hn, hgate]

/-- C7 witness: with secret `tok` configured and no token supplied, the
`admin.list_servers` call is rejected without touching the state; with no
secret configured the same arguments pass the gate. -/
theorem c7_admin_gate_witness :
    app_call_tool (some "tok") true exS0 "admin.list_servers" exArgs exWInitFail
        (Downstream.returns none) =
      (exS0, [{ text := "Error: unauthorized" }], []) ∧
    is_admin_ok none exArgs = true :=
  ⟨(c7_admin_gate (some "tok") "tok" exS0 "admin.list_servers" exArgs exWInitFail
      (Downstream.returns none)).1 rfl (by decide) (by decide) (by decide),
   (c7_admin_gate (some "tok") "tok" exS0 "admin.list_servers" exArgs exWInitFail
      (Downstream.returns none)).2.1⟩

/-- C2 witness: the failed registration of `x` on a fresh gateway leaves no
`x` entry in memory and the registry file unwritten. -/
theorem c2_failed_register_rolls_back_witness :
    odMem (register_server exSEmpty exE1 exWInitFail).1.registry_entries "x" = false ∧
    (register_server exSEmpty exE1 exWInitFail).1.file = exSEmpty.file :=
  c2_failed_register_rolls_back exSEmpty exE1 exWInitFail "x" (by decide)
    (by simp [odWF, odKeys, exSEmpty]) (by decide)

/-- C9 (amended): an argument of a pipe-transport entry is resolved against
the registry base directory exactly when it exists as given (relative to the
process working directory, or absolute) or is relative and exists under the
base directory; in every other case it is passed to the subprocess unchanged.
The last conjunct grounds the rule in the connect path: on a stdio connect
whose transport opens, the argument vector handed to the subprocess is the
per-argument image of this resolution. -/
theorem c9_resolution_rule (fs : List String) (cwd base arg : String) :
    (pathExists fs cwd (joinPath base arg) = true →
      resolveArg fs cwd base arg = resolvePath cwd (joinPath base arg)) ∧
    (pathExists fs cwd arg = true →
      resolveArg fs cwd base arg = resolvePath cwd (joinPath base arg)) ∧
    (pathExists fs cwd arg = false → pathExists fs cwd (joinPath base arg) = false →
      resolveArg fs cwd base arg = arg) ∧
    (∀ (s0 : GatewayState) (server : ServerEntry) (wd : ConnectWorld) (sid : String),
      truthyOptStr server.id = some sid →
      server.type_.getD "stdio" = "stdio" →
      wd.openOk = true →
      ∃ cmd, (connect_entry s0 server wd).s.spawned =
        s0.spawned ++ [(sid, cmd, server.args.map (resolveArg wd.fs wd.cwd s0.base_dir))]) := by
  refine ⟨?_, ?_, ?_, ?_⟩
  · intro h
    by_cases habs : isAbsolutePath arg = true
    · have hj : joinPath base arg = arg := by
        simp [joinPath, habs]
      rw [hj] at h
      simp [resolveArg, h]
    · have habs2 : isAbsolutePath arg = false := by
        simpa using habs
      simp [resolveArg, h, habs2]
  · intro h
    simp [resolveArg, h]
  · intro h1 h2
    simp [resolveArg, h1, h2]
  · intro s0 server wd sid hid h1 ho
    refine ⟨(if (match truthyOptStr server.command with
                 | some c => c
                 | none => pyExecutable) == "python" then pyExecutable
             else (match truthyOptStr server.command with
                 | some c => c
                 | none => pyExecutable)), ?_⟩
    simp [connect_entry, hid, h1, ho, openTransport, sessionPhases_frame]

/-- C9 amended-rule witness: `/base/y` exists, so the relative argument `y`
is resolved to it; and a concrete stdio connect spawns exactly the resolved
vector. -/
theorem c9_resolution_rule_witness :
    resolveArg ["/base/y"] "/cwd" "/base" "y" = resolvePath "/cwd" (joinPath "/base" "y") ∧
    (∃ cmd, (connect_entry exSEmpty exE9 exW9).s.spawned =
      exSEmpty.spawned ++
        [("x", cmd, exE9.args.map (resolveArg exW9.fs exW9.cwd exSEmpty.base_dir))]) :=
  ⟨(c9_resolution_rule ["/base/y"] "/cwd" "/base" "y").1 (by decide),
   (c9_resolution_rule ["/base/y"] "/cwd" "/base" "y").2.2.2 exSEmpty exE9 exW9 "x"
     (by decide) (by decide) (by decide)⟩

/-- C5: a successfully connected entry advertising N tools yields exactly the
N descriptors `"<id>.<toolName>"`, with `direct_call_allowed = false` on every
pipe-type (stdio) descriptor, and `direct_call_allowed = true` plus
`server_url` equal to the entry URL on every network-stream (sse or
streamable-http) descriptor; a network-stream entry carrying no URL fails
validation with the state unchanged and a result independent of the connect
environment — no connection attempt is made. -/
theorem c5_descriptor_construction (s0 : GatewayState) (server : ServerEntry)
    (w : ConnectWorld) (sid u : String) :
    (truthyOptStr server.id = some sid →
      server.type_.getD "stdio" = "stdio" →
      w.openOk = true → w.initOk = true → w.listOk = true →
      (connect_entry s0 server w).err = none ∧
      odLookup (connect_entry s0 server w).s.server_tools sid =
        some (w.advertised.map (mkGwTool sid "stdio" server.url)) ∧
      (w.advertised.map (mkGwTool sid "stdio" server.url)).length =
        w.advertised.length ∧
      (w.advertised.map (mkGwTool sid "stdio" server.url)).map Tool.name =
        w.advertised.map (fun t => sid ++ "." ++ t.name) ∧
      (∀ tl ∈ w.advertised.map (mkGwTool sid "stdio" server.url),
        tl.meta.direct_call_allowed = false)) ∧
    ((server.type_.getD "stdio" = "sse" ∨
        server.type_.getD "stdio" = "streamable-http") →
      truthyOptStr server.id = some sid →
      server.url = some u → u ≠ "" → strStartsWith u "http" = true →
      w.openOk = true → w.initOk = true → w.listOk = true →
      (connect_entry s0 server w).err = none ∧
      odLookup (connect_entry s0 server w).s.server_tools sid =
        some (w.advertised.map (mkGwTool sid (server.type_.getD "stdio") (some u))) ∧
      (w.advertised.map (mkGwTool sid (server.type_.getD "stdio") (some u))).length =
        w.advertised.length ∧
      (w.advertised.map (mkGwTool sid (server.type_.getD "stdio") (some u))).map Tool.name =
        w.advertised.map (fun t => sid ++ "." ++ t.name) ∧
      (∀ tl ∈ w.advertised.map (mkGwTool sid (server.type_.getD "stdio") (some u)),
        tl.meta.direct_call_allowed = true ∧ tl.meta.server_url = some u)) ∧
    ((server.type_.getD "stdio" = "sse" ∨
        server.type_.getD "stdio" = "streamable-http") →
      truthyOptStr server.id = some sid →
      server.url = none →
      (connect_entry s0 server w).err.isSome = true ∧
      (connect_entry s0 server w).s = s0 ∧
      (∀ w2 : ConnectWorld, connect_entry s0 server w2 = connect_entry s0 server w)) := by
  refine ⟨?_, ?_, ?_⟩
  · intro hid h1 ho hi hl
    refine ⟨?_, ?_, by simp, ?_, ?_⟩
    · simp [connect_entry, hid, h1, ho, openTransport, sessionPhases_success, hi, hl]
    · simp only [connect_entry, hid]
      simp [h1, ho, openTransport, sessionPhases_success, hi, hl,
        odLookup_odInsert_self]
    · simp [mkGwTool, List.map_map, Function.comp]
    · intro tl htl
      simp only [List.mem_map] at htl
      obtain ⟨t, ht, rfl⟩ := htl
      simp [mkGwTool, streamKind, h1]
  · intro ht hid hurl hne hhttp ho hi hl
    have hu : urlOkFor server = true := by
      have hb : (u != "") = true := by
        simpa using hne
      simp [urlOkFor, hurl, hb, hhttp]
    have h1 : ¬ (server.type_.getD "stdio") = "stdio" := by
      rcases ht with ht | ht <;> rw [ht] <;> decide
    rcases ht with ht | ht
    · refine ⟨?_, ?_, by simp, ?_, ?_⟩
      · simp [connect_entry, hid, h1, ht, hu, ho, openTransport,
          sessionPhases_success, hi, hl]
      · simp only [connect_entry, hid]
        simp [h1, ht, hu, ho, openTransport, sessionPhases_success, hi, hl,
          odLookup_odInsert_self, hurl]
      · simp [mkGwTool, List.map_map, Function.comp]
      · intro tl htl
        simp only [List.mem_map] at htl
        obtain ⟨t, ht2, rfl⟩ := htl
        simp [mkGwTool, streamKind, ht]
    · have h2 : ¬ (server.type_.getD "stdio") = "sse" := by
        rw [ht]
        decide
      refine ⟨?_, ?_, by simp, ?_, ?_⟩
      · simp [connect_entry, hid, h1, h2, ht, hu, ho, openTransport,
          sessionPhases_success, hi, hl]
      · simp only [connect_entry, hid]
        simp [h1, h2, ht, hu, ho, openTransport, sessionPhases_success, hi, hl,
          odLookup_odInsert_self, hurl]
      · simp [mkGwTool, List.map_map, Function.comp]
      · intro tl htl
        simp only [List.mem_map] at htl
        obtain ⟨t, ht2, rfl⟩ := htl
        simp [mkGwTool, streamKind, ht]
  · intro ht hid hurl
    have hu : urlOkFor server = false := by
      simp [urlOkFor, hurl]
    have h1 : ¬ (server.type_.getD "stdio") = "stdio" := by
      rcases ht with ht | ht <;> rw [ht] <;> decide
    rcases ht with ht | ht
    · refine ⟨by simp [connect_entry, hid, h1, ht, hu],
        by simp [connect_entry, hid, h1, ht, hu], ?_⟩
      intro w2
      simp [connect_entry, hid, h1, ht, hu]
    · have h2 : ¬ (server.type_.getD "stdio") = "sse" := by
        rw [ht]
        decide
      refine ⟨by simp [connect_entry, hid, h1, h2, ht, hu],
        by simp [connect_entry, hid, h1, h2, ht, hu], ?_⟩
      intro w2
      simp [connect_entry, hid, h1, h2, ht, hu]

/-- C5 witness: a successful stdio connect of `x` advertising one tool yields
the single descriptor `x.t` with direct calls disallowed, and the SSE entry
with a missing URL fails with the state unchanged. -/
theorem c5_descriptor_construction_witness :
    ((connect_entry exSEmpty exE1 exWOK).err = none ∧
      odLookup (connect_entry exSEmpty exE1 exWOK).s.server_tools "x" =
        some (exWOK.advertised.map (mkGwTool "x" "stdio" exE1.url))) ∧
    ((connect_entry exSEmpty { exESse with url := none } exWOK).err.isSome = true ∧
      (connect_entry exSEmpty { exESse with url := none } exWOK).s = exSEmpty) :=
  ⟨⟨((c5_descriptor_construction exSEmpty exE1 exWOK "x" "u").1 (by decide) (by decide)
      (by decide) (by decide) (by decide)).1,
    ((c5_descriptor_construction exSEmpty exE1 exWOK "x" "u").1 (by decide) (by decide)
      (by decide) (by decide) (by decide)).2.1⟩,
   ⟨((c5_descriptor_construction exSEmpty { exESse with url := none } exWOK "h" "u").2.2
      (Or.inl (by decide)) (by decide) (by decide)).1,
    ((c5_descriptor_construction exSEmpty { exESse with url := none } exWOK "h" "u").2.2
      (Or.inl (by decide)) (by decide) (by decide)).2.1⟩⟩

theorem truthy_getD {o : Option String} {sid : String}
    (h : truthyOptStr o = some sid) : o.getD "" = sid := by
  cases o with
  | none => simp [truthyOptStr] at h
  | some s =>
      by_cases hs : s = ""
      · simp [truthyOptStr, hs] at h
      · simp [truthyOptStr, hs] at h
        simp [h]

theorem connect_loop_ids_prefix (wfun : Nat → ConnectWorld) (l : List ServerEntry) :
    ∀ (i : Nat) (s : GatewayState),
      ∃ suf, (connect_loop wfun i s l).2.2 ++ suf = idsOf l := by
  induction l with
  | nil => intro i s; exact ⟨[], rfl⟩
  | cons srv rest ih =>
      intro i s
      cases hE : (connect_entry s srv (wfun i)).err with
      | some e =>
          refine ⟨idsOf rest, ?_⟩
          simp [connect_loop, hE, idsOf]
      | none =>
          obtain ⟨suf, hsuf⟩ := ih (i + 1) (connect_entry s srv (wfun i)).s
          refine ⟨suf, ?_⟩
          simp only [connect_loop, hE, idsOf, List.map, List.cons_append]
          rw [show (idsOf rest = rest.map (fun e => e.id.getD "")) from rfl] at hsuf
          rw [hsuf]

theorem connect_loop_ids_of_ok (wfun : Nat → ConnectWorld) (l : List ServerEntry) :
    ∀ (i : Nat) (s : GatewayState), (connect_loop wfun i s l).2.1 = none →
      (connect_loop wfun i s l).2.2 = idsOf l := by
  induction l with
  | nil => intro i s _; rfl
  | cons srv rest ih =>
      intro i s h
      cases hE : (connect_entry s srv (wfun i)).err with
      | some e =>
          exfalso
          simp [connect_loop, hE] at h
      | none =>
          simp only [connect_loop, hE] at h ⊢
          rw [ih (i + 1) _ h]
          rfl

theorem connect_loop_sessions_mono (wfun : Nat → ConnectWorld) (l : List ServerEntry) :
    ∀ (i : Nat) (s : GatewayState) (k : String), odMem s.sessions k = true →
      odMem (connect_loop wfun i s l).1.sessions k = true := by
  induction l with
  | nil =>
      intro i s k h
      simpa [connect_loop] using h
  | cons srv rest ih =>
      intro i s k h
      cases hE : (connect_entry s srv (wfun i)).err with
      | some e =>
          simp only [connect_loop, hE]
          rw [connect_entry_sessions_of_err s srv (wfun i) (by simp [hE])]
          exact h
      | none =>
          simp only [connect_loop, hE]
          apply ih
          obtain ⟨sid, rid, hsid, hss⟩ := connect_entry_sessions_of_ok s srv (wfun i) hE
          rw [hss]
          exact odMem_odInsert_of_mem sid rid h

theorem connect_loop_sessions_all (wfun : Nat → ConnectWorld) (l : List ServerEntry) :
    ∀ (i : Nat) (s : GatewayState), (connect_loop wfun i s l).2.1 = none →
      ∀ e ∈ l, odMem (connect_loop wfun i s l).1.sessions (e.id.getD "") = true := by
  induction l with
  | nil =>
      intro i s _ e he
      simp at he
  | cons srv rest ih =>
      intro i s h e he
      cases hE : (connect_entry s srv (wfun i)).err with
      | some err =>
          exfalso
          simp [connect_loop, hE] at h
      | none =>
          simp only [connect_loop, hE] at h ⊢
          rcases List.mem_cons.mp he with rfl | hmem
          · apply connect_loop_sessions_mono
            obtain ⟨sid, rid, hsid, hss⟩ := connect_entry_sessions_of_ok s e (wfun i) hE
            rw [hss, truthy_getD hsid]
            exact odMem_odInsert_self _ _ _
          · exact ih (i + 1) _ h e hmem

/-- C10: initial bulk connect attempts the registry-file entries strictly
sequentially in file order (the attempted ids are always an initial segment of
the file order, cut short at the first failure); the gateway serves only when
the registry file exists, is non-empty, every entry was attempted and every
entry's server has a live session — a missing file, an empty server list or
any single failed connect aborts startup before serving. -/
theorem c10_sequential_bulk_connect (s0 : GatewayState) (w : Nat → ConnectWorld) :
    (∃ suf, (gw_connect s0 w).2.2 ++ suf = idsOf (s0.file.getD [])) ∧
    (run_serves s0 w = true →
      ∃ servers, s0.file = some servers ∧ servers.isEmpty = false ∧
        (gw_connect s0 w).2.2 = idsOf servers ∧
        ∀ e ∈ servers, odMem (gw_connect s0 w).1.sessions (e.id.getD "") = true) ∧
    (s0.file = none → run_serves s0 w = false) ∧
    (s0.file = some [] → run_serves s0 w = false) := by
  cases hf : s0.file with
  | none =>
      refine ⟨⟨[], by simp [gw_connect, hf, idsOf]⟩, ?_, ?_, ?_⟩
      · intro h
        exfalso
        simp [run_serves, gw_connect, hf] at h
      · intro _
        simp [run_serves, gw_connect, hf]
      · intro hc
        simp at hc
  | some servers =>
      by_cases hemp : servers.isEmpty = true
      · have hnil : servers = [] := List.isEmpty_iff.mp hemp
        refine ⟨⟨[], by simp [gw_connect, hf, hemp, idsOf, hnil]⟩, ?_, ?_, ?_⟩
        · intro h
          exfalso
          simp [run_serves, gw_connect, hf, hemp] at h
        · intro hc
          simp at hc
        · intro _
          simp [run_serves, gw_connect, hf, hemp]
      · have hemp2 : servers.isEmpty = false := by
          simpa using hemp
        by_cases hnone : servers.any (fun srv => srv.id.isNone) = true
        · refine ⟨⟨idsOf servers, by simp [gw_connect, hf, hemp2, hnone, idsOf]⟩,
            ?_, ?_, ?_⟩
          · intro h
            exfalso
            simp [run_serves, gw_connect, hf, hemp2, hnone] at h
          · intro hc
            simp at hc
          · intro hc
            injection hc with hc2
            rw [hc2] at hemp2
            simp at hemp2
        · have hnone2 : servers.any (fun srv => srv.id.isNone) = false := by
            simpa using hnone
          have hids : ∀ (st : GatewayState),
              ∃ suf, (connect_loop w 0 st servers).2.2 ++ suf = idsOf servers :=
            fun st => connect_loop_ids_prefix w servers 0 st
          refine ⟨?_, ?_, ?_, ?_⟩
          · cases hO : (connect_loop w 0
                { s0 with
                  registry_entries :=
                    servers.foldl (fun m srv => odInsert m (srv.id.getD "") srv) [],
                  tools := [], tool_map := [], sessions := [], stdio_contexts := [],
                  http_clients := [], server_tools := [], file := some servers }
                servers).2.1 with
            | some e =>
                obtain ⟨suf, hsuf⟩ := hids
                  { s0 with
                    registry_entries :=
                      servers.foldl (fun m srv => odInsert m (srv.id.getD "") srv) [],
                    tools := [], tool_map := [], sessions := [], stdio_contexts := [],
                    http_clients := [], server_tools := [], file := some servers }
                refine ⟨suf, ?_⟩
                simp only [gw_connect, hf, hemp2, hnone2, Bool.false_eq_true, if_false,
                  ite_false, Option.getD_some, hO]
                exact hsuf
            | none =>
                obtain ⟨suf, hsuf⟩ := hids
                  { s0 with
                    registry_entries :=
                      servers.foldl (fun m srv => odInsert m (srv.id.getD "") srv) [],
                    tools := [], tool_map := [], sessions := [], stdio_contexts := [],
                    http_clients := [], server_tools := [], file := some servers }
                refine ⟨suf, ?_⟩
                simp only [gw_connect, hf, hemp2, hnone2, Bool.false_eq_true, if_false,
                  ite_false, Option.getD_some, hO]
                exact hsuf
          · intro hserve
            cases hO : (connect_loop w 0
                { s0 with
                  registry_entries :=
                    servers.foldl (fun m srv => odInsert m (srv.id.getD "") srv) [],
                  tools := [], tool_map := [], sessions := [], stdio_contexts := [],
                  http_clients := [], server_tools := [], file := some servers }
                servers).2.1 with
            | some e =>
                exfalso
                simp [run_serves, gw_connect, hf, hemp2, hnone2, hO] at hserve
            | none =>
                refine ⟨servers, rfl, hemp2, ?_, ?_⟩
                · simp only [gw_connect, hf, hemp2, hnone2, Bool.false_eq_true, if_false,
                    ite_false, hO]
                  exact connect_loop_ids_of_ok w servers 0 _ hO
                · intro e he
                  simp only [gw_connect, hf, hemp2, hnone2, Bool.false_eq_true, if_false,
                    ite_false, hO]
                  exact connect_loop_sessions_all w servers 0 _ hO e he
          · intro hc
            simp at hc
          · intro hc
            injection hc with hc2
            rw [hc2] at hemp2
            simp at hemp2

/-- C10 witness: with a one-entry registry file and an all-success
environment, startup serves, the attempted order is exactly the file order,
and the single server has a live session. -/
theorem c10_sequential_bulk_connect_witness :
    ∃ servers, exSReg.file = some servers ∧ servers.isEmpty = false ∧
      (gw_connect exSReg (fun _ => exWOK)).2.2 = idsOf servers ∧
      ∀ e ∈ servers, odMem (gw_connect exSReg (fun _ => exWOK)).1.sessions
        (e.id.getD "") = true :=
  (c10_sequential_bulk_connect exSReg (fun _ => exWOK)).2.1 (by decide)

/-! ### Lemmas for the replace-semantics claim -/

theorem mapEntriesOf_subset_of_sublist {m m2 : List (String × (String × String))}
    (sid : String) (h : List.Sublist m m2) :
    mapEntriesOf m sid ⊆ mapEntriesOf m2 sid := by
  unfold mapEntriesOf
  exact (h.filter (fun p => p.2.1 == sid)).subset

theorem mapEntriesOf_odInsert_subset (m : List (String × (String × String)))
    (sid k : String) (v : String × String) :
    mapEntriesOf (odInsert m k v) sid ⊆ (k, v) :: mapEntriesOf m sid := by
  intro x hx
  simp only [mapEntriesOf, List.mem_filter] at hx
  rcases mem_odInsert hx.1 with h | h
  · simp [h]
  · exact List.mem_cons_of_mem _ (by simp [mapEntriesOf, List.mem_filter, h, hx.2])

theorem odLookup_isSome_of_mem {α : Type} {m : List (String × α)} {k : String}
    {v : α} (h : (k, v) ∈ m) : (odLookup m k).isSome = true := by
  induction m with
  | nil => simp at h
  | cons hd tl ih =>
      obtain ⟨k1, v1⟩ := hd
      rcases List.mem_cons.mp h with h1 | h1
      · injection h1 with h2 h3
        simp [odLookup, h2.symm]
      · by_cases hk : k1 = k
        · simp [odLookup, hk]
        · simp only [odLookup, hk, if_false, ite_false]
          exact ih h1

theorem foldl_odErase_facts {α : Type} (names : List String) :
    ∀ (m : List (String × α)), odWF m →
      ∀ p ∈ names.foldl (fun acc n => odErase acc n) m, p ∈ m ∧ p.1 ∉ names := by
  induction names with
  | nil =>
      intro m _ p hp
      exact ⟨hp, by simp⟩
  | cons n rest ih =>
      intro m hwf p hp
      simp only [List.foldl_cons] at hp
      obtain ⟨hp1, hp2⟩ := ih (odErase m n) (odWF_odErase n hwf) p hp
      rw [odErase_eq_filter hwf] at hp1
      have hm := List.mem_of_mem_filter hp1
      have hne : ¬ (p.1 == n) = true := by
        have := List.of_mem_filter hp1
        simpa using this
      refine ⟨hm, ?_⟩
      intro hc
      rcases List.mem_cons.mp hc with hc1 | hc1
      · exact hne (by simp [hc1])
      · exact hp2 hc1

/-- After `_disconnect_entry`, no routing-table entry for the id remains
(unique keys assumed, as for every Python dict). -/
theorem delToolMapSeq_final_toolmap (l : List String) :
    ∀ s : GatewayState, (delToolMapSeq s l).1.tool_map =
      l.foldl (fun acc n => odErase acc n) s.tool_map := by
  induction l with
  | nil => intro s; rfl
  | cons n rest ih =>
      intro s
      simp only [delToolMapSeq, List.foldl_cons]
      exact ih { s with tool_map := odErase s.tool_map n }

theorem discSessions_final_facts (s : GatewayState) (sid : String) :
    (discSessions s sid).1.tool_map = s.tool_map ∧
    (discSessions s sid).1.tools = s.tools ∧
    (discSessions s sid).1.server_tools = s.server_tools ∧
    (discSessions s sid).1.nextRid = s.nextRid ∧
    (∀ r ∈ (discSessions s sid).1.openRes, r ∈ s.openRes) := by
  cases h : odLookup s.sessions sid with
  | none => simp [discSessions, h]
  | some rid =>
      refine ⟨by simp [discSessions, h, closeRes], by simp [discSessions, h, closeRes],
        by simp [discSessions, h, closeRes], by simp [discSessions, h, closeRes], ?_⟩
      intro r hr
      simp only [discSessions, h, closeRes] at hr
      exact List.mem_of_mem_erase hr

theorem discContexts_final_facts (s : GatewayState) (sid : String) :
    (discContexts s sid).1.tool_map = s.tool_map ∧
    (discContexts s sid).1.tools = s.tools ∧
    (discContexts s sid).1.server_tools = s.server_tools ∧
    (discContexts s sid).1.nextRid = s.nextRid ∧
    (∀ r ∈ (discContexts s sid).1.openRes, r ∈ s.openRes) := by
  cases h : odLookup s.stdio_contexts sid with
  | none => simp [discContexts, h]
  | some rid =>
      refine ⟨by simp [discContexts, h, closeRes], by simp [discContexts, h, closeRes],
        by simp [discContexts, h, closeRes], by simp [discContexts, h, closeRes], ?_⟩
      intro r hr
      simp only [discContexts, h, closeRes] at hr
      exact List.mem_of_mem_erase hr

theorem discHttp_final_facts (s : GatewayState) (sid : String) :
    (discHttp s sid).1.tool_map = s.tool_map ∧
    (discHttp s sid).1.tools = s.tools ∧
    (discHttp s sid).1.server_tools = s.server_tools ∧
    (discHttp s sid).1.nextRid = s.nextRid ∧
    (∀ r ∈ (discHttp s sid).1.openRes, r ∈ s.openRes) := by
  cases h : odLookup s.http_clients sid with
  | none => simp [discHttp, h]
  | some rid =>
      refine ⟨by simp [discHttp, h, closeRes], by simp [discHttp, h, closeRes],
        by simp [discHttp, h, closeRes], by simp [discHttp, h, closeRes], ?_⟩
      intro r hr
      simp only [discHttp, h, closeRes] at hr
      exact List.mem_of_mem_erase hr

theorem discServerTools_final_facts (s : GatewayState) (sid : String) :
    (discServerTools s sid).1.tool_map = s.tool_map ∧
    (discServerTools s sid).1.tools = s.tools ∧
    (discServerTools s sid).1.openRes = s.openRes ∧
    (discServerTools s sid).1.nextRid = s.nextRid ∧
    List.Sublist (discServerTools s sid).1.server_tools s.server_tools ∧
    (odWF s.server_tools → odLookup (discServerTools s sid).1.server_tools sid = none) := by
  by_cases h : odMem s.server_tools sid = true
  · refine ⟨by simp [discServerTools, h], by simp [discServerTools, h],
      by simp [discServerTools, h], by simp [discServerTools, h], ?_, ?_⟩
    · simp only [discServerTools, h, if_true, ite_true]
      exact odErase_sublist _ _
    · intro hwf
      simp only [discServerTools, h, if_true, ite_true]
      exact odLookup_odErase_self hwf
  · have h2 : odMem s.server_tools sid = false := by
      simpa using h
    refine ⟨by simp [discServerTools, h2], by simp [discServerTools, h2],
      by simp [discServerTools, h2], by simp [discServerTools, h2],
      by simp [discServerTools, h2], ?_⟩
    intro _
    simp only [discServerTools, h2, Bool.false_eq_true, if_false, ite_false]
    cases hx : odLookup s.server_tools sid with
    | none => rfl
    | some v =>
        rw [odMem, hx] at h2
        simp at h2

theorem discSessions_trace_facts (s : GatewayState) (sid : String) :
    ∀ t ∈ (discSessions s sid).2, t.tool_map = s.tool_map ∧ t.tools = s.tools ∧
      ∀ r ∈ t.openRes, r ∈ s.openRes := by
  intro t ht
  cases h : odLookup s.sessions sid with
  | none => simp [discSessions, h] at ht
  | some rid =>
      simp only [discSessions, h, List.mem_cons, List.mem_singleton] at ht
      rcases ht with rfl | ht2
      · exact ⟨rfl, rfl, fun r hr => List.mem_of_mem_erase hr⟩
      · rcases ht2 with rfl | hf
        · exact ⟨rfl, rfl, fun r hr => List.mem_of_mem_erase hr⟩
        · simp at hf

theorem discContexts_trace_facts (s : GatewayState) (sid : String) :
    ∀ t ∈ (discContexts s sid).2, t.tool_map = s.tool_map ∧ t.tools = s.tools ∧
      ∀ r ∈ t.openRes, r ∈ s.openRes := by
  intro t ht
  cases h : odLookup s.stdio_contexts sid with
  | none => simp [discContexts, h] at ht
  | some rid =>
      simp only [discContexts, h, List.mem_cons, List.mem_singleton] at ht
      rcases ht with rfl | ht2
      · exact ⟨rfl, rfl, fun r hr => List.mem_of_mem_erase hr⟩
      · rcases ht2 with rfl | hf
        · exact ⟨rfl, rfl, fun r hr => List.mem_of_mem_erase hr⟩
        · simp at hf

theorem discHttp_trace_facts (s : GatewayState) (sid : String) :
    ∀ t ∈ (discHttp s sid).2, t.tool_map = s.tool_map ∧ t.tools = s.tools ∧
      ∀ r ∈ t.openRes, r ∈ s.openRes := by
  intro t ht
  cases h : odLookup s.http_clients sid with
  | none => simp [discHttp, h] at ht
  | some rid =>
      simp only [discHttp, h, List.mem_cons, List.mem_singleton] at ht
      rcases ht with rfl | ht2
      · exact ⟨rfl, rfl, fun r hr => List.mem_of_mem_erase hr⟩
      · rcases ht2 with rfl | hf
        · exact ⟨rfl, rfl, fun r hr => List.mem_of_mem_erase hr⟩
        · simp at hf

theorem discServerTools_trace_facts (s : GatewayState) (sid : String) :
    ∀ t ∈ (discServerTools s sid).2, t.tool_map = s.tool_map ∧ t.tools = s.tools ∧
      ∀ r ∈ t.openRes, r ∈ s.openRes := by
  intro t ht
  by_cases h : odMem s.server_tools sid = true
  · simp only [discServerTools, h, if_true, ite_true, List.mem_singleton] at ht
    subst ht
    exact ⟨rfl, rfl, fun r hr => hr⟩
  · have h2 : odMem s.server_tools sid = false := by
      simpa using h
    simp [discServerTools, h2] at ht

theorem delToolMapSeq_trace_facts (l : List String) :
    ∀ s : GatewayState, ∀ t ∈ (delToolMapSeq s l).2,
      List.Sublist t.tool_map s.tool_map ∧ t.tools = s.tools ∧ t.openRes = s.openRes := by
  induction l with
  | nil =>
      intro s t ht
      simp [delToolMapSeq] at ht
  | cons n rest ih =>
      intro s t ht
      simp only [delToolMapSeq, List.mem_cons] at ht
      rcases ht with rfl | ht2
      · exact ⟨odErase_sublist _ _, rfl, rfl⟩
      · obtain ⟨h1, h2, h3⟩ := ih { s with tool_map := odErase s.tool_map n } t ht2
        exact ⟨h1.trans (odErase_sublist _ _), h2, h3⟩

theorem foldl_odErase_sublist {α : Type} (names : List String) :
    ∀ m : List (String × α),
      List.Sublist (names.foldl (fun acc n => odErase acc n) m) m := by
  induction names with
  | nil => intro m; simp
  | cons n rest ih =>
      intro m
      simp only [List.foldl_cons]
      exact (ih (odErase m n)).trans (odErase_sublist m n)

theorem disconnect_entry_trace_facts (s : GatewayState) (sid : String) :
    ∀ t ∈ (disconnect_entry s sid).2, List.Sublist t.tool_map s.tool_map ∧
      t.tools = s.tools ∧ ∀ r ∈ t.openRes, r ∈ s.openRes := by
  intro t ht
  have F1 := discSessions_final_facts s sid
  have F2 := discContexts_final_facts (discSessions s sid).1 sid
  have F3 := discHttp_final_facts (discContexts (discSessions s sid).1 sid).1 sid
  have F4 := discServerTools_final_facts
    (discHttp (discContexts (discSessions s sid).1 sid).1 sid).1 sid
  simp only [disconnect_entry, List.mem_append] at ht
  rcases ht with ((((h | h) | h) | h) | h)
  · obtain ⟨h1, h2, h3⟩ := discSessions_trace_facts s sid t h
    exact ⟨by rw [h1], h2, h3⟩
  · obtain ⟨h1, h2, h3⟩ := discContexts_trace_facts (discSessions s sid).1 sid t h
    refine ⟨by rw [h1, F1.1], by rw [h2, F1.2.1], ?_⟩
    intro r hr
    exact F1.2.2.2.2 r (h3 r hr)
  · obtain ⟨h1, h2, h3⟩ :=
      discHttp_trace_facts (discContexts (discSessions s sid).1 sid).1 sid t h
    refine ⟨by rw [h1, F2.1, F1.1], by rw [h2, F2.2.1, F1.2.1], ?_⟩
    intro r hr
    exact F1.2.2.2.2 r (F2.2.2.2.2 r (h3 r hr))
  · obtain ⟨h1, h2, h3⟩ := discServerTools_trace_facts
      (discHttp (discContexts (discSessions s sid).1 sid).1 sid).1 sid t h
    refine ⟨by rw [h1, F3.1, F2.1, F1.1], by rw [h2, F3.2.1, F2.2.1, F1.2.1], ?_⟩
    intro r hr
    exact F1.2.2.2.2 r (F2.2.2.2.2 r (F3.2.2.2.2 r (h3 r hr)))
  · obtain ⟨h1, h2, h3⟩ := delToolMapSeq_trace_facts _ _ t h
    refine ⟨?_, ?_, ?_⟩
    · rw [F4.1, F3.1, F2.1, F1.1] at h1
      exact h1
    · rw [h2, F4.2.1, F3.2.1, F2.2.1, F1.2.1]
    · intro r hr
      rw [h3, F4.2.2.1] at hr
      exact F1.2.2.2.2 r (F2.2.2.2.2 r (F3.2.2.2.2 r hr))

theorem disconnect_entry_final_facts (s : GatewayState) (sid : String) :
    List.Sublist (disconnect_entry s sid).1.tool_map s.tool_map ∧
    (∀ r ∈ (disconnect_entry s sid).1.openRes, r ∈ s.openRes) ∧
    (odWF s.tool_map → mapEntriesOf (disconnect_entry s sid).1.tool_map sid = []) ∧
    List.Sublist (disconnect_entry s sid).1.server_tools s.server_tools ∧
    (odWF s.server_tools →
      odLookup (disconnect_entry s sid).1.server_tools sid = none) := by
  have F1 := discSessions_final_facts s sid
  have F2 := discContexts_final_facts (discSessions s sid).1 sid
  have F3 := discHttp_final_facts (discContexts (discSessions s sid).1 sid).1 sid
  have F4 := discServerTools_final_facts
    (discHttp (discContexts (discSessions s sid).1 sid).1 sid).1 sid
  have hP4tm : (discServerTools
      (discHttp (discContexts (discSessions s sid).1 sid).1 sid).1 sid).1.tool_map =
      s.tool_map := by
    rw [F4.1, F3.1, F2.1, F1.1]
  obtain ⟨a5, e5⟩ := delToolMapSeq_shape
    ((((discServerTools (discHttp (discContexts (discSessions s sid).1 sid).1 sid).1
        sid).1.tool_map.filter (fun p => p.2.1 == sid)).map Prod.fst))
    (discServerTools (discHttp (discContexts (discSessions s sid).1 sid).1 sid).1 sid).1
  have hfin : (disconnect_entry s sid).1 =
      (delToolMapSeq
        (discServerTools (discHttp (discContexts (discSessions s sid).1 sid).1 sid).1 sid).1
        ((((discServerTools (discHttp (discContexts (discSessions s sid).1 sid).1 sid).1
          sid).1.tool_map.filter (fun p => p.2.1 == sid)).map Prod.fst))).1 := rfl
  have htm : (disconnect_entry s sid).1.tool_map =
      ((((discServerTools (discHttp (discContexts (discSessions s sid).1 sid).1 sid).1
        sid).1.tool_map.filter (fun p => p.2.1 == sid)).map Prod.fst)).foldl
        (fun acc n => odErase acc n)
        (discServerTools
          (discHttp (discContexts (discSessions s sid).1 sid).1 sid).1 sid).1.tool_map := by
    rw [hfin, delToolMapSeq_final_toolmap]
  have hOpen : (disconnect_entry s sid).1.openRes =
      (discServerTools
        (discHttp (discContexts (discSessions s sid).1 sid).1 sid).1 sid).1.openRes := by
    rw [hfin, e5]
  have hSrv : (disconnect_entry s sid).1.server_tools =
      (discServerTools
        (discHttp (discContexts (discSessions s sid).1 sid).1 sid).1 sid).1.server_tools := by
    rw [hfin, e5]
  refine ⟨?_, ?_, ?_, ?_, ?_⟩
  · rw [htm, hP4tm]
    exact foldl_odErase_sublist _ _
  · intro r hr
    rw [hOpen, F4.2.2.1] at hr
    exact F1.2.2.2.2 r (F2.2.2.2.2 r (F3.2.2.2.2 r hr))
  · intro hwf
    rw [htm, hP4tm]
    unfold mapEntriesOf
    apply List.filter_eq_nil_iff.mpr
    intro p hp
    obtain ⟨hpm, hpn⟩ := foldl_odErase_facts _ _ hwf p hp
    intro hps
    apply hpn
    apply List.mem_map_of_mem Prod.fst
    exact List.mem_filter.mpr ⟨hpm, hps⟩
  · rw [hSrv]
    have hs3 : (discHttp (discContexts (discSessions s sid).1 sid).1 sid).1.server_tools =
        s.server_tools := by
      rw [F3.2.2.1, F2.2.2.1, F1.2.2.1]
    rw [← hs3]
    exact F4.2.2.2.2.1
  · intro hws
    rw [hSrv]
    apply F4.2.2.2.2.2
    rw [F3.2.2.1, F2.2.2.1, F1.2.2.1]
    exact hws

theorem disconnect_entry_closes (s : GatewayState) (sid : String) (r0 : Nat)
    (hnd : s.openRes.Nodup) (hsess : odLookup s.sessions sid = some r0) :
    r0 ∉ (disconnect_entry s sid).1.openRes := by
  have F2 := discContexts_final_facts (discSessions s sid).1 sid
  have F3 := discHttp_final_facts (discContexts (discSessions s sid).1 sid).1 sid
  have F4 := discServerTools_final_facts
    (discHttp (discContexts (discSessions s sid).1 sid).1 sid).1 sid
  have h1 : (discSessions s sid).1.openRes = s.openRes.erase r0 := by
    simp [discSessions, hsess, closeRes]
  obtain ⟨a5, e5⟩ := delToolMapSeq_shape
    ((((discServerTools (discHttp (discContexts (discSessions s sid).1 sid).1 sid).1
        sid).1.tool_map.filter (fun p => p.2.1 == sid)).map Prod.fst))
    (discServerTools (discHttp (discContexts (discSessions s sid).1 sid).1 sid).1 sid).1
  have hOpen : (disconnect_entry s sid).1.openRes =
      (discServerTools
        (discHttp (discContexts (discSessions s sid).1 sid).1 sid).1 sid).1.openRes := by
    rw [show (disconnect_entry s sid).1 =
      (delToolMapSeq
        (discServerTools (discHttp (discContexts (discSessions s sid).1 sid).1 sid).1 sid).1
        ((((discServerTools (discHttp (discContexts (discSessions s sid).1 sid).1 sid).1
          sid).1.tool_map.filter (fun p => p.2.1 == sid)).map Prod.fst))).1 from rfl, e5]
  intro hc
  rw [hOpen, F4.2.2.1] at hc
  have hc2 : r0 ∈ (discSessions s sid).1.openRes :=
    F2.2.2.2.2 r0 (F3.2.2.2.2 r0 hc)
  rw [h1] at hc2
  exact hnd.not_mem_erase hc2

theorem addToolsSeq_mapEntries (l : List DownTool) :
    ∀ (s : GatewayState) (sid ty : String) (url : Option String),
      (∀ t ∈ (addToolsSeq s sid ty url l).2.2,
        mapEntriesOf t.tool_map sid ⊆
          mapEntriesOf s.tool_map sid ++ newMapEntries sid l) ∧
      mapEntriesOf (addToolsSeq s sid ty url l).1.tool_map sid ⊆
        mapEntriesOf s.tool_map sid ++ newMapEntries sid l := by
  induction l with
  | nil =>
      intro s sid ty url
      constructor
      · intro t ht
        simp [addToolsSeq] at ht
      · simp only [addToolsSeq, newMapEntries, List.map_nil, List.append_nil]
        exact fun x hx => hx
  | cons hd rest ih =>
      intro s sid ty url
      have hins := mapEntriesOf_odInsert_subset s.tool_map sid
        (mkGwTool sid ty url hd).name (sid, hd.name)
      have hhead : ((mkGwTool sid ty url hd).name, (sid, hd.name)) ∈
          newMapEntries sid (hd :: rest) := by
        simp [newMapEntries, mkGwTool]
      have htail : ∀ x ∈ newMapEntries sid rest, x ∈ newMapEntries sid (hd :: rest) := by
        intro x hx
        simp only [newMapEntries, List.map_cons]
        exact List.mem_cons_of_mem _ hx
      have hstep : ∀ x, x ∈ mapEntriesOf
            (odInsert s.tool_map (mkGwTool sid ty url hd).name (sid, hd.name)) sid ++
            newMapEntries sid rest →
          x ∈ mapEntriesOf s.tool_map sid ++ newMapEntries sid (hd :: rest) := by
        intro x hx
        rcases List.mem_append.mp hx with hx1 | hx1
        · rcases List.mem_cons.mp (hins hx1) with hx2 | hx2
          · exact List.mem_append.mpr (Or.inr (hx2 ▸ hhead))
          · exact List.mem_append.mpr (Or.inl hx2)
        · exact List.mem_append.mpr (Or.inr (htail x hx1))
      obtain ⟨htr, hfin⟩ := ih
        { s with tool_map := odInsert s.tool_map (mkGwTool sid ty url hd).name (sid, hd.name) }
        sid ty url
      constructor
      · intro t ht
        simp only [addToolsSeq, List.mem_cons] at ht
        rcases ht with rfl | ht2
        · intro x hx
          exact hstep x (List.mem_append.mpr (Or.inl hx))
        · intro x hx
          exact hstep x (htr t ht2 hx)
      · intro x hx
        exact hstep x (hfin hx)

theorem sessionPhases_trace_facts (server : ServerEntry) (sid ty : String)
    (trid : Nat) (w : ConnectWorld) (tr0 : List GatewayState)
    (s1 s : GatewayState)
    (htm : s1.tool_map = s.tool_map)
    (htl : s1.tools = s.tools)
    (hor : ∀ r ∈ s1.openRes, r ∈ s.openRes ∨ s.nextRid ≤ r)
    (hnr : s.nextRid ≤ s1.nextRid)
    (htr0 : ∀ t ∈ tr0,
      mapEntriesOf t.tool_map sid ⊆
        mapEntriesOf s.tool_map sid ++ newMapEntries sid w.advertised ∧
      t.tools = s.tools ∧
      ∀ r ∈ t.openRes, r ∈ s.openRes ∨ s.nextRid ≤ r) :
    ∀ t ∈ (sessionPhases s1 server sid ty trid w tr0).trace ++
        [(sessionPhases s1 server sid ty trid w tr0).s],
      mapEntriesOf t.tool_map sid ⊆
        mapEntriesOf s.tool_map sid ++ newMapEntries sid w.advertised ∧
      t.tools = s.tools ∧
      ∀ r ∈ t.openRes, r ∈ s.openRes ∨ s.nextRid ≤ r := by
  have hQs2 :
      mapEntriesOf (GatewayState.mk s1.base_dir s1.registry_entries s1.sessions
          s1.stdio_contexts s1.http_clients s1.server_tools s1.tools s1.tool_map
          s1.file (s1.openRes ++ [s1.nextRid]) (s1.nextRid + 1) s1.spawned).tool_map sid ⊆
        mapEntriesOf s.tool_map sid ++ newMapEntries sid w.advertised ∧
      (GatewayState.mk s1.base_dir s1.registry_entries s1.sessions
          s1.stdio_contexts s1.http_clients s1.server_tools s1.tools s1.tool_map
          s1.file (s1.openRes ++ [s1.nextRid]) (s1.nextRid + 1) s1.spawned).tools = s.tools ∧
      ∀ r ∈ (GatewayState.mk s1.base_dir s1.registry_entries s1.sessions
          s1.stdio_contexts s1.http_clients s1.server_tools s1.tools s1.tool_map
          s1.file (s1.openRes ++ [s1.nextRid]) (s1.nextRid + 1) s1.spawned).openRes,
        r ∈ s.openRes ∨ s.nextRid ≤ r := by
    refine ⟨?_, htl, ?_⟩
    · intro x hx
      rw [htm] at hx
      exact List.mem_append.mpr (Or.inl hx)
    · intro r hr
      rcases List.mem_append.mp hr with hr1 | hr1
      · exact hor r hr1
      · right
        rcases List.mem_singleton.mp hr1 with rfl
        exact hnr
  intro t ht
  by_cases hi : w.initOk = true
  · by_cases hl : w.listOk = true
    · simp only [sessionPhases, hi, hl, Bool.not_true, Bool.false_eq_true, if_false,
        ite_false, List.append_assoc, List.mem_append, List.mem_cons,
        List.mem_singleton] at ht
      obtain ⟨haddtr, haddfin⟩ := addToolsSeq_mapEntries w.advertised
        (GatewayState.mk s1.base_dir s1.registry_entries s1.sessions
          s1.stdio_contexts s1.http_clients s1.server_tools s1.tools s1.tool_map
          s1.file (s1.openRes ++ [s1.nextRid]) (s1.nextRid + 1) s1.spawned)
        sid ty server.url
      obtain ⟨afin, hafin⟩ := addToolsSeq_shape w.advertised
        (GatewayState.mk s1.base_dir s1.registry_entries s1.sessions
          s1.stdio_contexts s1.http_clients s1.server_tools s1.tools s1.tool_map
          s1.file (s1.openRes ++ [s1.nextRid]) (s1.nextRid + 1) s1.spawned)
        sid ty server.url
      have hboundfin :
          mapEntriesOf (addToolsSeq
            (GatewayState.mk s1.base_dir s1.registry_entries s1.sessions
          s1.stdio_contexts s1.http_clients s1.server_tools s1.tools s1.tool_map
          s1.file (s1.openRes ++ [s1.nextRid]) (s1.nextRid + 1) s1.spawned)
            sid ty server.url w.advertised).1.tool_map sid ⊆
            mapEntriesOf s.tool_map sid ++ newMapEntries sid w.advertised := by
        intro x hx
        rcases List.mem_append.mp (haddfin hx) with hx1 | hx1
        · rw [htm] at hx1
          exact List.mem_append.mpr (Or.inl hx1)
        · exact List.mem_append.mpr (Or.inr hx1)
      have hQfin : ∀ X : GatewayState,
          X.tool_map = (addToolsSeq
            (GatewayState.mk s1.base_dir s1.registry_entries s1.sessions
              s1.stdio_contexts s1.http_clients s1.server_tools s1.tools s1.tool_map
              s1.file (s1.openRes ++ [s1.nextRid]) (s1.nextRid + 1) s1.spawned)
            sid ty server.url w.advertised).1.tool_map →
          X.tools = (addToolsSeq
            (GatewayState.mk s1.base_dir s1.registry_entries s1.sessions
              s1.stdio_contexts s1.http_clients s1.server_tools s1.tools s1.tool_map
              s1.file (s1.openRes ++ [s1.nextRid]) (s1.nextRid + 1) s1.spawned)
            sid ty server.url w.advertised).1.tools →
          X.openRes = (addToolsSeq
            (GatewayState.mk s1.base_dir s1.registry_entries s1.sessions
              s1.stdio_contexts s1.http_clients s1.server_tools s1.tools s1.tool_map
              s1.file (s1.openRes ++ [s1.nextRid]) (s1.nextRid + 1) s1.spawned)
            sid ty server.url w.advertised).1.openRes →
          (mapEntriesOf X.tool_map sid ⊆
            mapEntriesOf s.tool_map sid ++ newMapEntries sid w.advertised ∧
          X.tools = s.tools ∧
          ∀ r ∈ X.openRes, r ∈ s.openRes ∨ s.nextRid ≤ r) := by
        intro X hXm hXt hXo
        refine ⟨?_, ?_, ?_⟩
        · intro x hx
          rw [hXm] at hx
          exact hboundfin hx
        · rw [hXt, hafin]
          exact htl
        · intro r hr
          rw [hXo, hafin] at hr
          exact hQs2.2.2 r hr
      rcases ht with ht | ((heq | habs) | (ht2 | htail))
      · exact htr0 t ht
      · rw [heq]
        exact hQs2
      · exact absurd habs (by simp)
      · have hb := haddtr t ht2
        obtain ⟨a, ha⟩ := addToolsSeq_trace_shape w.advertised
          (GatewayState.mk s1.base_dir s1.registry_entries s1.sessions
            s1.stdio_contexts s1.http_clients s1.server_tools s1.tools s1.tool_map
            s1.file (s1.openRes ++ [s1.nextRid]) (s1.nextRid + 1) s1.spawned)
          sid ty server.url t ht2
        refine ⟨?_, ?_, ?_⟩
        · intro x hx
          rcases List.mem_append.mp (hb hx) with hx1 | hx1
          · rw [htm] at hx1
            exact List.mem_append.mpr (Or.inl hx1)
          · exact List.mem_append.mpr (Or.inr hx1)
        · rw [ha]
          exact htl
        · intro r hr
          rw [ha] at hr
          exact hQs2.2.2 r hr
      · rcases htail with (heq | heq | heq | habs2) | (heq | habs3)
        · rw [heq]
          exact hQfin _ rfl rfl rfl
        · rw [heq]
          exact hQfin _ rfl rfl rfl
        · rw [heq]
          exact hQfin _ rfl rfl rfl
        · exact absurd habs2 (by simp)
        · rw [heq]
          exact hQfin _ rfl rfl rfl
        · exact absurd habs3 (by simp)
    · have hl2 : w.listOk = false := by
        simpa using hl
      simp only [sessionPhases, hi, hl2, Bool.not_true, Bool.not_false,
        Bool.false_eq_true, if_false, if_true, ite_true, ite_false,
        List.mem_append, List.mem_singleton] at ht
      rcases ht with (ht | ht) | ht
      · exact htr0 t ht
      · rcases ht with rfl
        exact hQs2
      · rcases ht with rfl
        exact hQs2
  · have hi2 : w.initOk = false := by
      simpa using hi
    simp only [sessionPhases, hi2, Bool.not_false, if_true, ite_true,
      List.mem_append, List.mem_singleton] at ht
    rcases ht with (ht | ht) | ht
    · exact htr0 t ht
    · rcases ht with rfl
      exact hQs2
    · rcases ht with rfl
      exact hQs2

theorem connect_entry_trace_facts (s : GatewayState) (server : ServerEntry)
    (w : ConnectWorld) (sid : String) (hid : truthyOptStr server.id = some sid) :
    ∀ t ∈ (connect_entry s server w).trace ++ [(connect_entry s server w).s],
      mapEntriesOf t.tool_map sid ⊆
        mapEntriesOf s.tool_map sid ++ newMapEntries sid w.advertised ∧
      t.tools = s.tools ∧
      ∀ r ∈ t.openRes, r ∈ s.openRes ∨ s.nextRid ≤ r := by
  have hQself :
      mapEntriesOf s.tool_map sid ⊆
        mapEntriesOf s.tool_map sid ++ newMapEntries sid w.advertised ∧
      s.tools = s.tools ∧
      ∀ r ∈ s.openRes, r ∈ s.openRes ∨ s.nextRid ≤ r :=
    ⟨fun x hx => List.mem_append.mpr (Or.inl hx), rfl, fun r hr => Or.inl hr⟩
  have hA : ¬("sse" = "stdio") := by decide
  have hB : ¬("streamable-http" = "stdio") := by decide
  have hC : ¬("streamable-http" = "sse") := by decide
  by_cases h1 : (server.type_.getD "stdio") = "stdio"
  · cases ho : w.openOk
    · intro t ht
      simp only [connect_entry, hid, h1, ho, beq_self_eq_true, if_true, ite_true,
        Bool.false_eq_true, if_false, ite_false, List.nil_append,
        List.mem_singleton, hA, hB, hC] at ht
      rw [ht]
      exact hQself
    · simp only [connect_entry, hid, hA, hB, hC]
      simp only [h1, ho, openTransport, beq_self_eq_true, if_true, ite_true]
      apply sessionPhases_trace_facts
      · rfl
      · rfl
      · intro r hr
        rcases List.mem_append.mp hr with h | h
        · exact Or.inl h
        · right
          rcases List.mem_singleton.mp h with rfl
          exact Nat.le_refl _
      · exact Nat.le_succ _
      · intro t0 ht0
        rcases List.mem_singleton.mp ht0 with rfl
        refine ⟨fun x hx => List.mem_append.mpr (Or.inl hx), rfl, ?_⟩
        intro r hr
        rcases List.mem_append.mp hr with h | h
        · exact Or.inl h
        · right
          rcases List.mem_singleton.mp h with rfl
          exact Nat.le_refl _
  · by_cases h2 : (server.type_.getD "stdio") = "sse"
    · by_cases hu : urlOkFor server = true
      · cases ho : w.openOk
        · intro t ht
          simp only [connect_entry, hid, h1, h2, hu, ho, beq_self_eq_true, beq_iff_eq,
            if_true, ite_true, Bool.false_eq_true, Bool.not_true, Bool.not_false,
            if_false, ite_false, List.nil_append, List.mem_singleton, hA, hB, hC] at ht
          rw [ht]
          exact hQself
        · simp only [connect_entry, hid, hA, hB, hC]
          simp only [h1, h2, hu, ho, openTransport, beq_self_eq_true, beq_iff_eq,
            Bool.not_true, Bool.not_false, if_true, ite_true, if_false, ite_false, hA, hB, hC]
          apply sessionPhases_trace_facts
          · rfl
          · rfl
          · intro r hr
            rcases List.mem_append.mp hr with h | h
            · exact Or.inl h
            · right
              rcases List.mem_singleton.mp h with rfl
              exact Nat.le_refl _
          · exact Nat.le_succ _
          · intro t0 ht0
            rcases List.mem_singleton.mp ht0 with rfl
            refine ⟨fun x hx => List.mem_append.mpr (Or.inl hx), rfl, ?_⟩
            intro r hr
            rcases List.mem_append.mp hr with h | h
            · exact Or.inl h
            · right
              rcases List.mem_singleton.mp h with rfl
              exact Nat.le_refl _
      · intro t ht
        have hu2 : urlOkFor server = false := by
          simpa using hu
        simp only [connect_entry, hid, h1, h2, hu2, beq_self_eq_true, beq_iff_eq,
          Bool.not_false, Bool.not_true, Bool.false_eq_true, if_true, ite_true,
          if_false, ite_false, List.nil_append, List.mem_singleton, hA, hB, hC] at ht
        rw [ht]
        exact hQself
    · by_cases h3 : (server.type_.getD "stdio") = "streamable-http"
      · by_cases hu : urlOkFor server = true
        · cases ho : w.openOk
          · intro t ht
            simp only [connect_entry, hid, h1, h2, h3, hu, ho, beq_self_eq_true,
              beq_iff_eq, if_true, ite_true, Bool.false_eq_true, Bool.not_true,
              Bool.not_false, if_false, ite_false, List.mem_append,
              List.mem_singleton, hA, hB, hC] at ht
            rcases ht with ht | ht <;> rw [ht] <;>
              exact ⟨fun x hx => List.mem_append.mpr (Or.inl hx), rfl, by
                intro r hr
                rcases List.mem_append.mp hr with h | h
                · exact Or.inl h
                · right
                  rcases List.mem_singleton.mp h with rfl
                  exact Nat.le_refl _⟩
          · simp only [connect_entry, hid, hA, hB, hC]
            simp only [h1, h2, h3, hu, ho, openTransport, beq_self_eq_true, beq_iff_eq,
              Bool.not_true, Bool.not_false, if_true, ite_true, if_false, ite_false, hA, hB, hC]
            apply sessionPhases_trace_facts
            · rfl
            · rfl
            · intro r hr
              rcases List.mem_append.mp hr with h | h
              · rcases List.mem_append.mp h with h4 | h4
                · exact Or.inl h4
                · right
                  rcases List.mem_singleton.mp h4 with rfl
                  exact Nat.le_refl _
              · right
                rcases List.mem_singleton.mp h with rfl
                exact Nat.le_succ _
            · exact Nat.le_succ_of_le (Nat.le_succ _)
            · intro t0 ht0
              simp only [List.mem_cons, List.mem_singleton] at ht0
              rcases ht0 with rfl | (rfl | habs)
              · refine ⟨fun x hx => List.mem_append.mpr (Or.inl hx), rfl, ?_⟩
                intro r hr
                rcases List.mem_append.mp hr with h | h
                · exact Or.inl h
                · right
                  rcases List.mem_singleton.mp h with rfl
                  exact Nat.le_refl _
              · refine ⟨fun x hx => List.mem_append.mpr (Or.inl hx), rfl, ?_⟩
                intro r hr
                rcases List.mem_append.mp hr with h | h
                · rcases List.mem_append.mp h with h4 | h4
                  · exact Or.inl h4
                  · right
                    rcases List.mem_singleton.mp h4 with rfl
                    exact Nat.le_refl _
                · right
                  rcases List.mem_singleton.mp h with rfl
                  exact Nat.le_succ _
              · exact absurd habs (by simp)
        · intro t ht
          have hu2 : urlOkFor server = false := by
            simpa using hu
          simp only [connect_entry, hid, h1, h2, h3, hu2, beq_self_eq_true, beq_iff_eq,
            Bool.not_false, Bool.not_true, Bool.false_eq_true, if_true, ite_true,
            if_false, ite_false, List.nil_append, List.mem_singleton, hA, hB, hC] at ht
          rw [ht]
          exact hQself
      · intro t ht
        simp only [connect_entry, hid, h1, h2, h3, beq_self_eq_true, beq_iff_eq,
          if_true, ite_true, if_false, ite_false, List.nil_append,
          List.mem_singleton, hA, hB, hC] at ht
        rw [ht]
        exact hQself

theorem addToolsSeq_fst_server_tools (l : List DownTool) (s : GatewayState)
    (sid ty : String) (url : Option String) :
    (addToolsSeq s sid ty url l).1.server_tools = s.server_tools := by
  obtain ⟨a, ha⟩ := addToolsSeq_shape l s sid ty url
  rw [ha]

/-- After a connect attempt, the per-server tool lists are unchanged, or the
attempt succeeded and exactly the namespaced list for the connecting id was
stored. -/
theorem connect_entry_server_tools_cases (s : GatewayState) (server : ServerEntry)
    (w : ConnectWorld) (sid : String) (hid : truthyOptStr server.id = some sid) :
    (connect_entry s server w).s.server_tools = s.server_tools ∨
    (connect_entry s server w).s.server_tools =
      odInsert s.server_tools sid
        (w.advertised.map (mkGwTool sid (server.type_.getD "stdio") server.url)) := by
  have hA : ¬("sse" = "stdio") := by decide
  have hB : ¬("streamable-http" = "stdio") := by decide
  have hC : ¬("streamable-http" = "sse") := by decide
  by_cases hi : w.initOk = true
  · by_cases hl : w.listOk = true
    · by_cases h1 : (server.type_.getD "stdio") = "stdio"
      · cases ho : w.openOk
        · exact Or.inl (by simp [connect_entry, hid, h1, ho])
        · right
          simp [connect_entry, hid, h1, ho, openTransport, sessionPhases, hi, hl,
            addToolsSeq_fst_server_tools, addToolsSeq_toolsList]
      · by_cases h2 : (server.type_.getD "stdio") = "sse"
        · by_cases hu : urlOkFor server = true
          · cases ho : w.openOk
            · exact Or.inl (by simp [connect_entry, hid, h1, h2, hu, ho, hA])
            · right
              simp [connect_entry, hid, h1, h2, hu, ho, openTransport, sessionPhases,
                hi, hl, hA, addToolsSeq_fst_server_tools, addToolsSeq_toolsList]
          · have hu2 : urlOkFor server = false := by
              simpa using hu
            exact Or.inl (by simp [connect_entry, hid, h1, h2, hu2, hA])
        · by_cases h3 : (server.type_.getD "stdio") = "streamable-http"
          · by_cases hu : urlOkFor server = true
            · cases ho : w.openOk
              · exact Or.inl (by simp [connect_entry, hid, h1, h2, h3, hu, ho, hB, hC])
              · right
                simp [connect_entry, hid, h1, h2, h3, hu, ho, openTransport,
                  sessionPhases, hi, hl, hB, hC,
                  addToolsSeq_fst_server_tools, addToolsSeq_toolsList]
            · have hu2 : urlOkFor server = false := by
                simpa using hu
              exact Or.inl (by simp [connect_entry, hid, h1, h2, h3, hu2, hB, hC])
          · exact Or.inl (by simp [connect_entry, hid, h1, h2, h3])
    · have hl2 : w.listOk = false := by
        simpa using hl
      left
      by_cases h1 : (server.type_.getD "stdio") = "stdio"
      · cases ho : w.openOk
        · simp [connect_entry, hid, h1, ho]
        · simp [connect_entry, hid, h1, ho, openTransport, sessionPhases, hi, hl2,
            addToolsSeq_fst_server_tools]
      · by_cases h2 : (server.type_.getD "stdio") = "sse"
        · by_cases hu : urlOkFor server = true
          · cases ho : w.openOk
            · simp [connect_entry, hid, h1, h2, hu, ho, hA]
            · simp [connect_entry, hid, h1, h2, hu, ho, openTransport, sessionPhases,
                hi, hl2, hA, addToolsSeq_fst_server_tools]
          · have hu2 : urlOkFor server = false := by
              simpa using hu
            simp [connect_entry, hid, h1, h2, hu2, hA]
        · by_cases h3 : (server.type_.getD "stdio") = "streamable-http"
          · by_cases hu : urlOkFor server = true
            · cases ho : w.openOk
              · simp [connect_entry, hid, h1, h2, h3, hu, ho, hB, hC]
              · simp [connect_entry, hid, h1, h2, h3, hu, ho, openTransport,
                  sessionPhases, hi, hl2, hB, hC, addToolsSeq_fst_server_tools]
            · have hu2 : urlOkFor server = false := by
                simpa using hu
              simp [connect_entry, hid, h1, h2, h3, hu2, hB, hC]
          · simp [connect_entry, hid, h1, h2, h3]
  · have hi2 : w.initOk = false := by
      simpa using hi
    left
    by_cases h1 : (server.type_.getD "stdio") = "stdio"
    · cases ho : w.openOk
      · simp [connect_entry, hid, h1, ho]
      · simp [connect_entry, hid, h1, ho, openTransport, sessionPhases, hi2]
    · by_cases h2 : (server.type_.getD "stdio") = "sse"
      · by_cases hu : urlOkFor server = true
        · cases ho : w.openOk
          · simp [connect_entry, hid, h1, h2, hu, ho, hA]
          · simp [connect_entry, hid, h1, h2, hu, ho, openTransport, sessionPhases,
              hi2, hA]
        · have hu2 : urlOkFor server = false := by
            simpa using hu
          simp [connect_entry, hid, h1, h2, hu2, hA]
      · by_cases h3 : (server.type_.getD "stdio") = "streamable-http"
        · by_cases hu : urlOkFor server = true
          · cases ho : w.openOk
            · simp [connect_entry, hid, h1, h2, h3, hu, ho, hB, hC]
            · simp [connect_entry, hid, h1, h2, h3, hu, ho, openTransport,
                sessionPhases, hi2, hB, hC]
          · have hu2 : urlOkFor server = false := by
              simpa using hu
            simp [connect_entry, hid, h1, h2, h3, hu2, hB, hC]
        · simp [connect_entry, hid, h1, h2, h3]

/-- Tools of the rebuilt catalog that belong to `sid`, when the per-server map
holds `new` under `sid` and nothing else for `sid`, all come from `new`. -/
theorem catToolsOf_flatten_insert (st : List (String × List Tool)) (sid : String)
    (new : List Tool) (hlk : odLookup st sid = none)
    (hmeta : ∀ p ∈ st, ∀ tl ∈ p.2, tl.meta.server_id = p.1) :
    ∀ tl ∈ catToolsOf (((odInsert st sid new).map Prod.snd).flatten) sid, tl ∈ new := by
  intro tl htl
  simp only [catToolsOf, List.mem_filter] at htl
  obtain ⟨htl1, htl2⟩ := htl
  simp only [List.mem_flatten, List.mem_map] at htl1
  obtain ⟨ts, ⟨p, hp, hps⟩, hts⟩ := htl1
  rcases mem_odInsert hp with h | h
  · rw [h] at hps
    rw [← hps] at hts
    exact hts
  · exfalso
    have hid2 : tl.meta.server_id = p.1 := hmeta p h tl (by rw [hps]; exact hts)
    have hp1 : p.1 = sid := by
      rw [← hid2]
      simpa using htl2
    have hm : (p.1, p.2) ∈ st := h
    rw [hp1] at hm
    have := odLookup_isSome_of_mem hm
    rw [hlk] at this
    simp at this

/-- With no entry for `sid` in the per-server map, the rebuilt catalog holds
no tool of `sid` at all. -/
theorem catToolsOf_flatten_none (st : List (String × List Tool)) (sid : String)
    (hlk : odLookup st sid = none)
    (hmeta : ∀ p ∈ st, ∀ tl ∈ p.2, tl.meta.server_id = p.1) :
    catToolsOf ((st.map Prod.snd).flatten) sid = [] := by
  unfold catToolsOf
  apply List.filter_eq_nil_iff.mpr
  intro tl htl
  simp only [List.mem_flatten, List.mem_map] at htl
  obtain ⟨ts, ⟨p, hp, hps⟩, hts⟩ := htl
  intro hc
  have hid2 : tl.meta.server_id = p.1 := hmeta p hp tl (by rw [hps]; exact hts)
  have hp1 : p.1 = sid := by
    rw [← hid2]
    simpa using hc
  have hm : (p.1, p.2) ∈ st := hp
  rw [hp1] at hm
  have := odLookup_isSome_of_mem hm
  rw [hlk] at this
  simp at this

/-- C3: a register call for an id that already has an active connection tears
the old connection down completely before the new one appears: over every
intermediate state of the call, the routing-table entries of that id are a
subset of the old ones or a subset of the new ones (never a mix), the catalog
tools of that id are a subset of the old ones or of the new ones (never a
mix), and in any state where a routing-table entry not belonging to the old
connection is visible, the old session handle has already been closed. -/
theorem c3_replace_never_mixes_old_and_new
    (s0 : GatewayState) (server : ServerEntry) (w : ConnectWorld)
    (sid : String) (oldRid : Nat)
    (hid : truthyOptStr server.id = some sid)
    (hsess : odLookup s0.sessions sid = some oldRid)
    (hreg : odMem s0.registry_entries sid = true)
    (hres : s0.openRes.Nodup)
    (hlt : oldRid < s0.nextRid)
    (hwm : odWF s0.tool_map)
    (hws : odWF s0.server_tools)
    (hst : ∀ p ∈ s0.server_tools, ∀ tl ∈ p.2, tl.meta.server_id = p.1) :
    ∀ t ∈ (register_server s0 server w).2.2,
      (toolMapOf t sid ⊆ toolMapOf s0 sid ∨
        toolMapOf t sid ⊆ newMapEntries sid w.advertised) ∧
      (catalogOf t sid ⊆ catalogOf s0 sid ∨
        catalogOf t sid ⊆
          newCatTools sid (server.type_.getD "stdio") server.url w.advertised) ∧
      ((∃ e ∈ toolMapOf t sid, e ∉ toolMapOf s0 sid) → oldRid ∉ t.openRes) := by
  have Dtr := disconnect_entry_trace_facts s0 sid
  have Dfin := disconnect_entry_final_facts s0 sid
  have Dpres := disconnect_entry_preserves s0 sid
  have Dclose := disconnect_entry_closes s0 sid oldRid hres hsess
  have hempty : mapEntriesOf (disconnect_entry s0 sid).1.tool_map sid = [] :=
    Dfin.2.2.1 hwm
  have Ctr := connect_entry_trace_facts
    (GatewayState.mk (disconnect_entry s0 sid).1.base_dir
      (odInsert (disconnect_entry s0 sid).1.registry_entries sid server)
      (disconnect_entry s0 sid).1.sessions (disconnect_entry s0 sid).1.stdio_contexts
      (disconnect_entry s0 sid).1.http_clients (disconnect_entry s0 sid).1.server_tools
      (disconnect_entry s0 sid).1.tools (disconnect_entry s0 sid).1.tool_map
      (disconnect_entry s0 sid).1.file (disconnect_entry s0 sid).1.openRes
      (disconnect_entry s0 sid).1.nextRid (disconnect_entry s0 sid).1.spawned)
    server w sid hid
  have Cst := connect_entry_server_tools_cases
    (GatewayState.mk (disconnect_entry s0 sid).1.base_dir
      (odInsert (disconnect_entry s0 sid).1.registry_entries sid server)
      (disconnect_entry s0 sid).1.sessions (disconnect_entry s0 sid).1.stdio_contexts
      (disconnect_entry s0 sid).1.http_clients (disconnect_entry s0 sid).1.server_tools
      (disconnect_entry s0 sid).1.tools (disconnect_entry s0 sid).1.tool_map
      (disconnect_entry s0 sid).1.file (disconnect_entry s0 sid).1.openRes
      (disconnect_entry s0 sid).1.nextRid (disconnect_entry s0 sid).1.spawned)
    server w sid hid
  have hmetaD : ∀ p ∈ (disconnect_entry s0 sid).1.server_tools,
      ∀ tl ∈ p.2, tl.meta.server_id = p.1 :=
    fun p hp => hst p (Dfin.2.2.2.1.subset hp)
  have hlkD : odLookup (disconnect_entry s0 sid).1.server_tools sid = none :=
    Dfin.2.2.2.2 hws
  -- facts about the state the connect attempt returns
  have hmF := fun t ht => (Ctr t ht).1
  have hQnew : ∀ t : GatewayState,
      mapEntriesOf t.tool_map sid ⊆
        mapEntriesOf (disconnect_entry s0 sid).1.tool_map sid ++
          newMapEntries sid w.advertised →
      t.tools = s0.tools →
      (∀ r ∈ t.openRes,
        r ∈ (disconnect_entry s0 sid).1.openRes ∨ s0.nextRid ≤ r) →
      ((toolMapOf t sid ⊆ toolMapOf s0 sid ∨
          toolMapOf t sid ⊆ newMapEntries sid w.advertised) ∧
       (catalogOf t sid ⊆ catalogOf s0 sid ∨
          catalogOf t sid ⊆
            newCatTools sid (server.type_.getD "stdio") server.url w.advertised) ∧
       ((∃ e ∈ toolMapOf t sid, e ∉ toolMapOf s0 sid) → oldRid ∉ t.openRes)) := by
    intro t hm htls hor
    refine ⟨Or.inr ?_, Or.inl ?_, ?_⟩
    · intro x hx
      rcases List.mem_append.mp (hm hx) with h | h
      · rw [hempty] at h
        exact absurd h (List.not_mem_nil x)
      · exact h
    · show catToolsOf t.tools sid ⊆ catToolsOf s0.tools sid
      rw [htls]
      exact fun x hx => hx
    · intro _
      intro hc
      rcases hor oldRid hc with h | h
      · exact Dclose h
      · exact absurd h (Nat.not_le.mpr hlt)
  -- transfer of the connect-trace facts into the hQnew interface
  have hCQ : ∀ t0 : GatewayState, (mapEntriesOf t0.tool_map sid ⊆
        mapEntriesOf (disconnect_entry s0 sid).1.tool_map sid ++
          newMapEntries sid w.advertised ∧
      t0.tools = (disconnect_entry s0 sid).1.tools ∧
      ∀ r ∈ t0.openRes,
        r ∈ (disconnect_entry s0 sid).1.openRes ∨
          (disconnect_entry s0 sid).1.nextRid ≤ r) →
      (mapEntriesOf t0.tool_map sid ⊆
        mapEntriesOf (disconnect_entry s0 sid).1.tool_map sid ++
          newMapEntries sid w.advertised ∧
      t0.tools = s0.tools ∧
      ∀ r ∈ t0.openRes,
        r ∈ (disconnect_entry s0 sid).1.openRes ∨ s0.nextRid ≤ r) := by
    intro t0 h
    refine ⟨h.1, h.2.1.trans Dpres.2.2.1, ?_⟩
    intro r hr
    rcases h.2.2 r hr with h2 | h2
    · exact Or.inl h2
    · right
      rw [Dpres.2.2.2.1] at h2
      exact h2
  intro t ht
  simp only [register_server, hid, hreg, if_true, ite_true] at ht
  split at ht
  · -- successful connect: rebuild and persist close the call
    rcases List.mem_append.mp ht with h | h
    · rcases List.mem_append.mp h with h2 | h3
      · rcases List.mem_append.mp h2 with hA | hB
        · obtain ⟨hsub, htls, hor⟩ := Dtr t hA
          refine ⟨Or.inl (mapEntriesOf_subset_of_sublist sid hsub), Or.inl ?_, ?_⟩
          · show catToolsOf t.tools sid ⊆ catToolsOf s0.tools sid
            rw [htls]
            exact fun x hx => hx
          · intro hex
            obtain ⟨e, he, hne⟩ := hex
            exact absurd (mapEntriesOf_subset_of_sublist sid hsub he) hne
        · rcases List.mem_singleton.mp hB with rfl
          exact hQnew _ (fun x hx => List.mem_append.mpr (Or.inl hx)) Dpres.2.2.1
            (fun r hr => Or.inl hr)
      · exact hQnew t (hCQ t (Ctr t (List.mem_append.mpr (Or.inl h3)))).1
          (hCQ t (Ctr t (List.mem_append.mpr (Or.inl h3)))).2.1
          (hCQ t (Ctr t (List.mem_append.mpr (Or.inl h3)))).2.2
    · -- t is the rebuilt or the persisted state
      have hF := hCQ _ (Ctr _ (List.mem_append.mpr (Or.inr (List.mem_singleton.mpr rfl))))
      have hmapNew : mapEntriesOf
          (connect_entry
            (GatewayState.mk (disconnect_entry s0 sid).1.base_dir
                  (odInsert (disconnect_entry s0 sid).1.registry_entries sid server)
                  (disconnect_entry s0 sid).1.sessions
                  (disconnect_entry s0 sid).1.stdio_contexts
                  (disconnect_entry s0 sid).1.http_clients
                  (disconnect_entry s0 sid).1.server_tools
                  (disconnect_entry s0 sid).1.tools (disconnect_entry s0 sid).1.tool_map
                  (disconnect_entry s0 sid).1.file (disconnect_entry s0 sid).1.openRes
                  (disconnect_entry s0 sid).1.nextRid
                  (disconnect_entry s0 sid).1.spawned)
            server w).s.tool_map sid ⊆ newMapEntries sid w.advertised := by
        intro x hx
        rcases List.mem_append.mp (hF.1 hx) with h4 | h4
        · rw [hempty] at h4
          exact absurd h4 (List.not_mem_nil x)
        · exact h4
      have hcat : catToolsOf
          ((((connect_entry
            (GatewayState.mk (disconnect_entry s0 sid).1.base_dir
                  (odInsert (disconnect_entry s0 sid).1.registry_entries sid server)
                  (disconnect_entry s0 sid).1.sessions
                  (disconnect_entry s0 sid).1.stdio_contexts
                  (disconnect_entry s0 sid).1.http_clients
                  (disconnect_entry s0 sid).1.server_tools
                  (disconnect_entry s0 sid).1.tools (disconnect_entry s0 sid).1.tool_map
                  (disconnect_entry s0 sid).1.file (disconnect_entry s0 sid).1.openRes
                  (disconnect_entry s0 sid).1.nextRid
                  (disconnect_entry s0 sid).1.spawned)
            server w).s.server_tools).map Prod.snd).flatten) sid ⊆
          newCatTools sid (server.type_.getD "stdio") server.url w.advertised := by
        rcases Cst with hcase | hcase
        · rw [hcase]
          rw [catToolsOf_flatten_none (disconnect_entry s0 sid).1.server_tools sid
            hlkD hmetaD]
          exact List.nil_subset _
        · rw [hcase]
          intro x hx
          exact catToolsOf_flatten_insert (disconnect_entry s0 sid).1.server_tools
            sid _ hlkD hmetaD x hx
      have hQre : ∀ t1 : GatewayState,
          t1.tool_map = (connect_entry
            (GatewayState.mk (disconnect_entry s0 sid).1.base_dir
                  (odInsert (disconnect_entry s0 sid).1.registry_entries sid server)
                  (disconnect_entry s0 sid).1.sessions
                  (disconnect_entry s0 sid).1.stdio_contexts
                  (disconnect_entry s0 sid).1.http_clients
                  (disconnect_entry s0 sid).1.server_tools
                  (disconnect_entry s0 sid).1.tools (disconnect_entry s0 sid).1.tool_map
                  (disconnect_entry s0 sid).1.file (disconnect_entry s0 sid).1.openRes
                  (disconnect_entry s0 sid).1.nextRid
                  (disconnect_entry s0 sid).1.spawned)
            server w).s.tool_map →
          t1.tools = (((connect_entry
            (GatewayState.mk (disconnect_entry s0 sid).1.base_dir
                  (odInsert (disconnect_entry s0 sid).1.registry_entries sid server)
                  (disconnect_entry s0 sid).1.sessions
                  (disconnect_entry s0 sid).1.stdio_contexts
                  (disconnect_entry s0 sid).1.http_clients
                  (disconnect_entry s0 sid).1.server_tools
                  (disconnect_entry s0 sid).1.tools (disconnect_entry s0 sid).1.tool_map
                  (disconnect_entry s0 sid).1.file (disconnect_entry s0 sid).1.openRes
                  (disconnect_entry s0 sid).1.nextRid
                  (disconnect_entry s0 sid).1.spawned)
            server w).s.server_tools).map Prod.snd).flatten →
          t1.openRes = (connect_entry
            (GatewayState.mk (disconnect_entry s0 sid).1.base_dir
                  (odInsert (disconnect_entry s0 sid).1.registry_entries sid server)
                  (disconnect_entry s0 sid).1.sessions
                  (disconnect_entry s0 sid).1.stdio_contexts
                  (disconnect_entry s0 sid).1.http_clients
                  (disconnect_entry s0 sid).1.server_tools
                  (disconnect_entry s0 sid).1.tools (disconnect_entry s0 sid).1.tool_map
                  (disconnect_entry s0 sid).1.file (disconnect_entry s0 sid).1.openRes
                  (disconnect_entry s0 sid).1.nextRid
                  (disconnect_entry s0 sid).1.spawned)
            server w).s.openRes →
          ((toolMapOf t1 sid ⊆ toolMapOf s0 sid ∨
              toolMapOf t1 sid ⊆ newMapEntries sid w.advertised) ∧
           (catalogOf t1 sid ⊆ catalogOf s0 sid ∨
              catalogOf t1 sid ⊆
                newCatTools sid (server.type_.getD "stdio") server.url w.advertised) ∧
           ((∃ e ∈ toolMapOf t1 sid, e ∉ toolMapOf s0 sid) →
              oldRid ∉ t1.openRes)) := by
        intro t1 h1m h1t h1o
        refine ⟨Or.inr ?_, Or.inr ?_, ?_⟩
        · show mapEntriesOf t1.tool_map sid ⊆ newMapEntries sid w.advertised
          rw [h1m]
          exact hmapNew
        · show catToolsOf t1.tools sid ⊆ _
          rw [h1t]
          exact hcat
        · intro _
          intro hc
          rw [h1o] at hc
          rcases hF.2.2 oldRid hc with h4 | h4
          · exact Dclose h4
          · exact absurd h4 (Nat.not_le.mpr hlt)
      rcases List.mem_cons.mp h with heq | h4
      · rw [heq]
        exact hQre _ rfl rfl rfl
      · rcases List.mem_singleton.mp h4 with rfl
        exact hQre _ rfl rfl rfl
  · -- failed connect: rollback removes the entry and disconnects again
    have hF := hCQ _ (Ctr _ (List.mem_append.mpr (Or.inr (List.mem_singleton.mpr rfl))))
    rcases List.mem_append.mp ht with h | hT
    · rcases List.mem_append.mp h with h2 | hS3
      · rcases List.mem_append.mp h2 with h3 | hC
        · rcases List.mem_append.mp h3 with hA | hB
          · obtain ⟨hsub, htls, hor⟩ := Dtr t hA
            refine ⟨Or.inl (mapEntriesOf_subset_of_sublist sid hsub), Or.inl ?_, ?_⟩
            · show catToolsOf t.tools sid ⊆ catToolsOf s0.tools sid
              rw [htls]
              exact fun x hx => hx
            · intro hex
              obtain ⟨e, he, hne⟩ := hex
              exact absurd (mapEntriesOf_subset_of_sublist sid hsub he) hne
          · rcases List.mem_singleton.mp hB with rfl
            exact hQnew _ (fun x hx => List.mem_append.mpr (Or.inl hx)) Dpres.2.2.1
              (fun r hr => Or.inl hr)
        · exact hQnew t (hCQ t (Ctr t (List.mem_append.mpr (Or.inl hC)))).1
            (hCQ t (Ctr t (List.mem_append.mpr (Or.inl hC)))).2.1
            (hCQ t (Ctr t (List.mem_append.mpr (Or.inl hC)))).2.2
      · rcases List.mem_singleton.mp hS3 with heq
        rw [heq]
        by_cases hc2 : odMem (connect_entry
            (GatewayState.mk (disconnect_entry s0 sid).1.base_dir
                  (odInsert (disconnect_entry s0 sid).1.registry_entries sid server)
                  (disconnect_entry s0 sid).1.sessions
                  (disconnect_entry s0 sid).1.stdio_contexts
                  (disconnect_entry s0 sid).1.http_clients
                  (disconnect_entry s0 sid).1.server_tools
                  (disconnect_entry s0 sid).1.tools (disconnect_entry s0 sid).1.tool_map
                  (disconnect_entry s0 sid).1.file (disconnect_entry s0 sid).1.openRes
                  (disconnect_entry s0 sid).1.nextRid
                  (disconnect_entry s0 sid).1.spawned)
            server w).s.registry_entries sid = true
        · simp only [hc2, if_true, ite_true]
          exact hQnew _ hF.1 hF.2.1 hF.2.2
        · simp only [hc2, Bool.false_eq_true, if_false, ite_false]
          exact hQnew _ hF.1 hF.2.1 hF.2.2
    · obtain ⟨hsub, htls, hor⟩ := disconnect_entry_trace_facts _ sid t hT
      by_cases hc2 : odMem (connect_entry
          (GatewayState.mk (disconnect_entry s0 sid).1.base_dir
                  (odInsert (disconnect_entry s0 sid).1.registry_entries sid server)
                  (disconnect_entry s0 sid).1.sessions
                  (disconnect_entry s0 sid).1.stdio_contexts
                  (disconnect_entry s0 sid).1.http_clients
                  (disconnect_entry s0 sid).1.server_tools
                  (disconnect_entry s0 sid).1.tools (disconnect_entry s0 sid).1.tool_map
                  (disconnect_entry s0 sid).1.file (disconnect_entry s0 sid).1.openRes
                  (disconnect_entry s0 sid).1.nextRid
                  (disconnect_entry s0 sid).1.spawned)
          server w).s.registry_entries sid = true
      · simp only [hc2, if_true, ite_true] at hsub htls hor
        refine ⟨Or.inr ?_, Or.inl ?_, ?_⟩
        · intro x hx
          have hx2 := mapEntriesOf_subset_of_sublist sid hsub hx
          rcases List.mem_append.mp (hF.1 hx2) with h5 | h5
          · rw [hempty] at h5
            exact absurd h5 (List.not_mem_nil x)
          · exact h5
        · show catToolsOf t.tools sid ⊆ catToolsOf s0.tools sid
          rw [htls, hF.2.1]
          exact fun x hx => hx
        · intro _
          intro hc
          rcases hF.2.2 oldRid (hor oldRid hc) with h5 | h5
          · exact Dclose h5
          · exact absurd h5 (Nat.not_le.mpr hlt)
      · simp only [hc2, Bool.false_eq_true, if_false, ite_false] at hsub htls hor
        refine ⟨Or.inr ?_, Or.inl ?_, ?_⟩
        · intro x hx
          have hx2 := mapEntriesOf_subset_of_sublist sid hsub hx
          rcases List.mem_append.mp (hF.1 hx2) with h5 | h5
          · rw [hempty] at h5
            exact absurd h5 (List.not_mem_nil x)
          · exact h5
        · show catToolsOf t.tools sid ⊆ catToolsOf s0.tools sid
          rw [htls, hF.2.1]
          exact fun x hx => hx
        · intro _
          intro hc
          rcases hF.2.2 oldRid (hor oldRid hc) with h5 | h5
          · exact Dclose h5
          · exact absurd h5 (Nat.not_le.mpr hlt)

/-- Witness for C3 at a concrete state: server `x` connected with session
handle 1, replaced by a register whose connect attempt fails at initialize. -/
theorem c3_replace_never_mixes_old_and_new_witness :
    truthyOptStr exE2.id = some "x" ∧
    odLookup exS0.sessions "x" = some 1 ∧
    odMem exS0.registry_entries "x" = true ∧
    exS0.openRes.Nodup ∧ 1 < exS0.nextRid ∧
    odWF exS0.tool_map ∧ odWF exS0.server_tools ∧
    (∀ p ∈ exS0.server_tools, ∀ tl ∈ p.2, tl.meta.server_id = p.1) ∧
    (∀ t ∈ (register_server exS0 exE2 exWInitFail).2.2,
      (toolMapOf t "x" ⊆ toolMapOf exS0 "x" ∨
        toolMapOf t "x" ⊆ newMapEntries "x" exWInitFail.advertised) ∧
      (catalogOf t "x" ⊆ catalogOf exS0 "x" ∨
        catalogOf t "x" ⊆
          newCatTools "x" (exE2.type_.getD "stdio") exE2.url exWInitFail.advertised) ∧
      ((∃ e ∈ toolMapOf t "x", e ∉ toolMapOf exS0 "x") → 1 ∉ t.openRes)) := by
  refine ⟨by decide, by decide, by decide, by decide, by decide,
    by simp [odWF, odKeys, exS0], by simp [odWF, odKeys, exS0], by decide, ?_⟩
  exact c3_replace_never_mixes_old_and_new exS0 exE2 exWInitFail "x" 1
    (by decide) (by decide) (by decide) (by decide) (by decide)
    (by simp [odWF, odKeys, exS0]) (by simp [odWF, odKeys, exS0]) (by decide)

end MCPTest


